import Mathlib

/-!
Verification development for the diet-coaching chatbot backend
(`server/services/meal_service.py`, `server/services/chat_service.py`,
`server/services/user_context.py`, `server/ai/prompts/classifier.py`,
`server/ai/tools/food_tools.py`).

The relational store (Supabase tables `meals`, `meal_items`, `chat_messages`)
is modelled as an in-memory state: each `Meal` carries its owned
`meal_items` rows (the source always accesses items through their
`meal_id` foreign key, via nested selects, and meal deletion cascades to
its items).  Python numbers are modelled as exact rationals `ℚ`;
`round` is Python 3 banker's rounding, modelled on `ℚ`.
-/

/-! ### Python-string helpers (str.lower, str.strip, "x in y", ", ".join) -/

/-- Model of Python `str.lower()`: lower-case every character. -/
def myToLower (s : String) : String := ⟨s.data.map Char.toLower⟩

/-- ASCII whitespace, for `str.strip()`. -/
def isSpaceChar (c : Char) : Bool := c == ' ' || c == '\t' || c == '\n' || c == '\r'

/-- Model of Python `str.strip()`: drop whitespace from both ends. -/
def myTrim (s : String) : String :=
  ⟨(((s.data.dropWhile isSpaceChar).reverse.dropWhile isSpaceChar).reverse : List Char)⟩

/-- Does `pat` occur as a contiguous run at the front of `l`? -/
def charsPrefixOf : List Char → List Char → Bool
  | [], _ => true
  | _ :: _, [] => false
  | a :: as, b :: bs => a == b && charsPrefixOf as bs

/-- Does `pat` occur as a contiguous run anywhere in `l`?  (Python `pat in s`.) -/
def charsSubOf (pat : List Char) : List Char → Bool
  | [] => pat.isEmpty
  | b :: bs => charsPrefixOf pat (b :: bs) || charsSubOf pat bs

/-- Model of Python `needle in haystack` on strings (substring test). -/
def strSubOf (needle haystack : String) : Bool := charsSubOf needle.data haystack.data

/-- Model of Python `sep.join(xs)`. -/
def joinSep (sep : String) : List String → String
  | [] => ""
  | [x] => x
  | x :: y :: xs => x ++ sep ++ joinSep sep (y :: xs)

/-! ### Python numeric helpers -/

/-- Floor of a rational, computably (`Int.fdiv` is floor division and the
denominator is positive). -/
def ratFloor (q : ℚ) : ℤ := Int.fdiv q.num q.den

/-- Model of Python 3 `round(x)` on exact values: round half to even
(`q - ⌊q⌋` is compared with 1/2, ties go to the even neighbour). -/
def pyRound (q : ℚ) : ℤ :=
  if q - (ratFloor q : ℚ) < 1 / 2 then ratFloor q
  else if q - (ratFloor q : ℚ) > 1 / 2 then ratFloor q + 1
  else if ratFloor q % 2 = 0 then ratFloor q else ratFloor q + 1

/-- Rendering of a number into a message string (Python f-string interpolation
of a number; integers render exactly, non-integers differ only in formatting,
which no claim touches). -/
def ratStr (q : ℚ) : String :=
  if q.den = 1 then toString q.num else toString q.num ++ "/" ++ toString q.den

/-! ### Data model (`meals`, `meal_items`, `chat_messages` tables) -/

/-- A `meal_items` row.  `quantity` is the display label (`f"{quantity}인분"`);
the macro columns are `protein_g`, `carbs_g`, `fat_g` as in the schema. -/
structure MealItem where
  id : Nat
  name : String
  quantity : String
  calories : ℚ
  protein_g : ℚ
  carbs_g : ℚ
  fat_g : ℚ
deriving DecidableEq

/-- A `meals` row together with its owned `meal_items` rows (the source reads
items only through the `meal_id` foreign key and deletes cascade). -/
structure Meal where
  id : Nat
  user_id : String
  date : String
  meal_type : String
  total_calories : ℚ
  items : List MealItem
deriving DecidableEq

/-- A `chat_messages` row. -/
structure ChatMsg where
  user_id : String
  role : String
  content : String
  chat_type : String
deriving DecidableEq

/-- The relational store: the tables, in insertion (= `created_at`) order,
plus the id counters that model the database's generated primary keys. -/
structure Store where
  meals : List Meal
  chat_messages : List ChatMsg
  next_meal_id : Nat
  next_item_id : Nat
deriving DecidableEq

def emptyStore : Store := ⟨[], [], 0, 0⟩

/-- `dict` labels `MEAL_TYPE_LABELS` (with the `.get(…, "")` default). -/
def MEAL_TYPE_LABELS (mt : String) : String :=
  if mt == "breakfast" then "아침"
  else if mt == "lunch" then "점심"
  else if mt == "dinner" then "저녁"
  else if mt == "snack" then "간식"
  else ""

/-- `infer_meal_type` from `meal_service.py`: meal type from the current hour. -/
def infer_meal_type (hour : Nat) : String :=
  if 5 ≤ hour ∧ hour < 10 then "breakfast"
  else if 10 ≤ hour ∧ hour < 15 then "lunch"
  else if 15 ≤ hour ∧ hour < 21 then "dinner"
  else "snack"

/-- A `{success, message}` result dict of the meal-service operations. -/
structure ActionRes where
  success : Bool
  message : String
deriving DecidableEq

/-- An element of the `foods` list passed to `log_meal_directly`
(`quantity` is read with `f.get("quantity", 1)`, hence optional). -/
structure FoodInput where
  name : String
  quantity : Option ℚ
  calories : ℚ
  protein : ℚ
  carbs : ℚ
  fat : ℚ
deriving DecidableEq

/-- A processed food: nutrients scaled by quantity, as in the
`processed_foods` comprehension of `log_meal_directly`. -/
structure ProcessedFood where
  name : String
  quantity : ℚ
  calories : ℚ
  protein : ℚ
  carbs : ℚ
  fat : ℚ
deriving DecidableEq

/-- One entry of the `processed_foods` comprehension in `log_meal_directly`. -/
def processFood (f : FoodInput) : ProcessedFood :=
  let q := f.quantity.getD 1
  { name := f.name
    quantity := q
    calories := (pyRound (f.calories * q) : ℚ)
    protein := (pyRound (f.protein * q * 10) : ℚ) / 10
    carbs := (pyRound (f.carbs * q * 10) : ℚ) / 10
    fat := (pyRound (f.fat * q * 10) : ℚ) / 10 }

/-- The `meal_items` rows inserted for a list of processed foods, with
consecutive database-generated ids starting at `baseId`. -/
def mkItemRows (baseId : Nat) : List ProcessedFood → List MealItem
  | [] => []
  | f :: fs =>
    { id := baseId
      name := f.name
      quantity := ratStr f.quantity ++ "인분"
      calories := f.calories
      protein_g := f.protein
      carbs_g := f.carbs
      fat_g := f.fat } :: mkItemRows (baseId + 1) fs

/-- The `maybe_single()` lookup of a meal by `(user_id, date, meal_type)`. -/
def findMeal (S : Store) (user_id meal_date meal_type : String) : Option Meal :=
  S.meals.find? (fun e => e.user_id == user_id && e.date == meal_date && e.meal_type == meal_type)

/-- `UPDATE meals … WHERE id = mid`, with the row's items carried along. -/
def replaceMealById (meals : List Meal) (mid : Nat) (e' : Meal) : List Meal :=
  meals.map (fun e => if e.id == mid then e' else e)

/-- `DELETE FROM meals WHERE id = mid` (items cascade with the row). -/
def removeMealById (meals : List Meal) (mid : Nat) : List Meal :=
  meals.filter (fun e => !(e.id == mid))

/-- `log_meal_directly` from `meal_service.py`.  Returns the mutated store and
the result dict.  (The `maybe_single()` probe is modelled by `findMeal`; its
`except` path only applies to duplicate-key rows, which the creation path
never produces.) -/
def log_meal_directly (S : Store) (user_id meal_type meal_date : String)
    (foods : List FoodInput) : Store × ActionRes :=
  let processed_foods := foods.map processFood
  let new_items_calories := (processed_foods.map (·.calories)).sum
  match findMeal S user_id meal_date meal_type with
  | some meal =>
    let existing_names := meal.items.map (fun it => myToLower it.name)
    let new_foods := processed_foods.filter
      (fun f => !(existing_names.contains (myToLower f.name)))
    if new_foods.isEmpty then
      let food_names := joinSep ", " (processed_foods.map (·.name))
      (S, { success := true, message := food_names ++ "은(는) 이미 기록되어 있어요!" })
    else
      let new_calories := (new_foods.map (·.calories)).sum
      let total_calories := meal.total_calories + new_calories
      let meal' := { meal with
        total_calories := total_calories
        items := meal.items ++ mkItemRows S.next_item_id new_foods }
      let food_names := joinSep ", " (new_foods.map (·.name))
      ({ S with meals := replaceMealById S.meals meal.id meal'
                next_item_id := S.next_item_id + new_foods.length },
       { success := true
         message := food_names ++ " (" ++ ratStr new_calories ++ "kcal) 기록 완료" })
  | none =>
    let total_calories := new_items_calories
    let meal : Meal := { id := S.next_meal_id, user_id := user_id, date := meal_date
                         meal_type := meal_type, total_calories := total_calories
                         items := mkItemRows S.next_item_id processed_foods }
    let food_names := joinSep ", " (processed_foods.map (·.name))
    ({ S with meals := S.meals ++ [meal]
              next_meal_id := S.next_meal_id + 1
              next_item_id := S.next_item_id + processed_foods.length },
     { success := true
       message := food_names ++ " (" ++ ratStr total_calories ++ "kcal) 기록 완료" })

/-- Result dict of `get_meals_data` (`data` carries the matched meal rows). -/
structure GetMealsRes where
  success : Bool
  message : String
  data : Option (List Meal)
deriving DecidableEq

/-- `get_meals_data` from `meal_service.py`. -/
def get_meals_data (S : Store) (user_id meal_date meal_type : String) : GetMealsRes :=
  let meals := S.meals.filter (fun e =>
    e.user_id == user_id && e.date == meal_date &&
      (meal_type == "all" || e.meal_type == meal_type))
  if meals.isEmpty then
    { success := true, message := meal_date ++ " 식단 기록이 없습니다.", data := none }
  else
    let summary_lines := meals.map (fun m =>
      MEAL_TYPE_LABELS m.meal_type ++ ": " ++ joinSep ", " (m.items.map (·.name)) ++
        " (" ++ ratStr m.total_calories ++ "kcal)")
    let summary := joinSep "\n" summary_lines
    let total_calories := (meals.map (·.total_calories)).sum
    { success := true
      message := meal_date ++ " 식단:\n" ++ summary ++ "\n총 " ++ ratStr total_calories ++ "kcal"
      data := some meals }

/-- Python truthiness of the optional `food_name` argument (`if food_name:`). -/
def pyTruthyStrOpt : Option String → Bool
  | none => false
  | some s => !(s == "")

/-- `delete_meal_data` from `meal_service.py`. -/
def delete_meal_data (S : Store) (user_id meal_date meal_type : String)
    (food_name : Option String) : Store × ActionRes :=
  match findMeal S user_id meal_date meal_type with
  | none =>
    (S, { success := false
          message := meal_date ++ " " ++ MEAL_TYPE_LABELS meal_type ++ " 기록이 없습니다." })
  | some meal =>
    if pyTruthyStrOpt food_name then
      let fn := food_name.getD ""
      match meal.items.find? (fun it => strSubOf (myToLower fn) (myToLower it.name)) with
      | none =>
        (S, { success := false, message := "\"" ++ fn ++ "\"을(를) 찾을 수 없습니다." })
      | some target_item =>
        let items' := meal.items.filter (fun it => !(it.id == target_item.id))
        let new_total := max 0 (meal.total_calories - target_item.calories)
        let meals1 := replaceMealById S.meals meal.id
          { meal with total_calories := new_total, items := items' }
        let meals2 := if meal.items.length == 1 then removeMealById meals1 meal.id else meals1
        ({ S with meals := meals2 },
         { success := true, message := "\"" ++ target_item.name ++ "\" 삭제 완료" })
    else
      ({ S with meals := removeMealById S.meals meal.id },
       { success := true, message := MEAL_TYPE_LABELS meal_type ++ " 전체 삭제 완료" })

/-- The `new_food` dict passed to `update_meal_data`. -/
structure NewFood where
  name : String
  calories : ℚ
  protein : ℚ
  carbs : ℚ
  fat : ℚ
deriving DecidableEq

/-- `update_meal_data` from `meal_service.py`. -/
def update_meal_data (S : Store) (user_id meal_date meal_type old_food_name : String)
    (new_food : NewFood) : Store × ActionRes :=
  match findMeal S user_id meal_date meal_type with
  | none =>
    (S, { success := false
          message := meal_date ++ " " ++ MEAL_TYPE_LABELS meal_type ++ " 기록이 없습니다." })
  | some meal =>
    match meal.items.find? (fun it => strSubOf (myToLower old_food_name) (myToLower it.name)) with
    | none =>
      (S, { success := false
            message := "\"" ++ old_food_name ++ "\"을(를) 찾을 수 없습니다." })
    | some target_item =>
      let updated := { target_item with
        name := new_food.name, calories := new_food.calories
        protein_g := new_food.protein, carbs_g := new_food.carbs, fat_g := new_food.fat }
      let items' := meal.items.map (fun it => if it.id == target_item.id then updated else it)
      let calories_diff := new_food.calories - target_item.calories
      let new_total := max 0 (meal.total_calories + calories_diff)
      ({ S with meals := replaceMealById S.meals meal.id
                  { meal with total_calories := new_total, items := items' } },
       { success := true
         message := "\"" ++ target_item.name ++ "\" → \"" ++ new_food.name ++ "\" 수정 완료" })

/-! ### Weight trend (`user_context.py`, step 5 of `fetch_user_context`) -/

/-- The weight-trend derivation of `fetch_user_context` over the 7-day weight
series (weights in kg, modelled as exact rationals). -/
def weight_trend : List ℚ → String
  | [] => "unknown"
  | [_] => "unknown"
  | w0 :: w1 :: rest =>
    let first_weight := w0
    let last_weight := (w1 :: rest).getLast (List.cons_ne_nil w1 rest)
    let diff := last_weight - first_weight
    if diff > 3 / 10 then "up"
    else if diff < -(3 / 10) then "down"
    else "stable"

/-! ### Intent classifier (`ai/prompts/classifier.py`) -/

def VALID_INTENTS : List String := ["log", "query", "stats", "modify", "analyze", "chat"]

/-- `classify_intent`: the provider call is an oracle.  `none` models the call
throwing (the `except` path); `some c` models a response whose
`choices[0].message.content` is `c` (itself `none` when the content is null). -/
def classify_intent (resp : Option (Option String)) : String :=
  match resp with
  | none => "chat"
  | some none => "chat"
  | some (some content) =>
    if content == "" then "chat"
    else
      let result := myToLower (myTrim content)
      if VALID_INTENTS.contains result then result else "chat"

/-! ### JSON values and tool-argument parsing (`ai/tools/food_tools.py`)

`json.loads` of the raw argument string is modelled by an `Option Json`
(`none` = unparsable).  Python's `except Exception: return None` paths
(non-dict arguments, non-dict list elements) are the `none` branches. -/

inductive Json where
  | null : Json
  | bool : Bool → Json
  | num : ℚ → Json
  | str : String → Json
  | arr : List Json → Json
  | obj : List (String × Json) → Json

/-- Python dict lookup `d.get(k)` on parsed JSON (missing key ↦ `none`). -/
def jLookup (kvs : List (String × Json)) (k : String) : Option Json :=
  (kvs.find? (fun p => p.1 == k)).map (·.2)

/-- Python truthiness of a JSON value. -/
def jTruthy : Json → Bool
  | .null => false
  | .bool b => b
  | .num q => !(q == 0)
  | .str s => !(s == "")
  | .arr xs => !xs.isEmpty
  | .obj kvs => !kvs.isEmpty

/-- Truthiness of `d.get(k)` (missing key ↦ `None` ↦ falsy). -/
def truthyOpt (o : Option Json) : Bool :=
  match o with
  | none => false
  | some j => jTruthy j

/-- `match` arm for iterating a foods list: each element must be a dict,
otherwise `food.get` raises and the parser's `except` returns `None`. -/
def asObjKvs : Json → Option (List (String × Json))
  | .obj kvs => some kvs
  | _ => none

/-- One food entry of the parsed `log_meal` arguments, with the defaults of
the parser applied (`food.get("name", "")`, `food.get("quantity", 1)`,
macros defaulting to 0).  Values stay raw JSON, as in the Python dict. -/
structure FoodArgs where
  name : Json
  quantity : Json
  calories : Json
  protein : Json
  carbs : Json
  fat : Json

def mkFoodArgs (fkv : List (String × Json)) : FoodArgs :=
  { name := (jLookup fkv "name").getD (.str "")
    quantity := (jLookup fkv "quantity").getD (.num 1)
    calories := (jLookup fkv "calories").getD (.num 0)
    protein := (jLookup fkv "protein").getD (.num 0)
    carbs := (jLookup fkv "carbs").getD (.num 0)
    fat := (jLookup fkv "fat").getD (.num 0) }

structure LogMealArgs where
  meal_type : Json
  date : Json
  foods : List FoodArgs

/-- The `if not args.get("date"): args["date"] = get_today_local()` step of
`parse_log_meal_args`: keep a truthy date value, else default to today. -/
def dateOrToday (kvs : List (String × Json)) (today : String) : Json :=
  match jLookup kvs "date" with
  | some dv => if jTruthy dv then dv else .str today
  | none => .str today

/-- `parse_log_meal_args`.  `j` is the outcome of `json.loads` on the raw
argument string; `today` is `get_today_local()`. -/
def parse_log_meal_args (j : Option Json) (today : String) : Option LogMealArgs :=
  match j with
  | some (.obj kvs) =>
    match jLookup kvs "meal_type", jLookup kvs "foods" with
    | some mtv, some fv =>
      if jTruthy mtv && jTruthy fv then
        match fv with
        | .arr fs =>
          match fs.mapM asObjKvs with
          | some fkvs =>
            some { meal_type := mtv, date := dateOrToday kvs today
                   foods := fkvs.map mkFoodArgs }
          | none => none
        | _ => none
      else none
    | _, _ => none
  | _ => none

structure GetMealsArgs where
  date : Json
  meal_type : Json

/-- `parse_get_meals_args`: never fails — any exception (unparsable JSON,
non-dict arguments) falls back to `{"date": today, "meal_type": "all"}`. -/
def parse_get_meals_args (j : Option Json) (today : String) : GetMealsArgs :=
  match j with
  | some (.obj kvs) =>
    { date := (jLookup kvs "date").getD (.str today)
      meal_type := (jLookup kvs "meal_type").getD (.str "all") }
  | _ => { date := .str today, meal_type := .str "all" }

structure DeleteMealArgs where
  date : Json
  meal_type : Json
  food_name : Option Json

/-- `parse_delete_meal_args`. -/
def parse_delete_meal_args (j : Option Json) (today : String) : Option DeleteMealArgs :=
  match j with
  | some (.obj kvs) =>
    match jLookup kvs "meal_type" with
    | some mtv =>
      if jTruthy mtv then
        some { date := (jLookup kvs "date").getD (.str today)
               meal_type := mtv
               food_name := jLookup kvs "food_name" }
      else none
    | none => none
  | _ => none

structure NewFoodArgs where
  name : Json
  calories : Json
  protein : Json
  carbs : Json
  fat : Json

structure UpdateMealArgs where
  date : Json
  meal_type : Json
  old_food_name : Json
  new_food : NewFoodArgs

/-- `parse_update_meal_args`. -/
def parse_update_meal_args (j : Option Json) (today : String) : Option UpdateMealArgs :=
  match j with
  | some (.obj kvs) =>
    match jLookup kvs "meal_type", jLookup kvs "old_food_name", jLookup kvs "new_food" with
    | some mtv, some ofn, some nf =>
      if jTruthy mtv && jTruthy ofn && jTruthy nf then
        match nf with
        | .obj nfkv =>
          some { date := (jLookup kvs "date").getD (.str today)
                 meal_type := mtv
                 old_food_name := ofn
                 new_food :=
                   { name := (jLookup nfkv "name").getD (.str "")
                     calories := (jLookup nfkv "calories").getD (.num 0)
                     protein := (jLookup nfkv "protein").getD (.num 0)
                     carbs := (jLookup nfkv "carbs").getD (.num 0)
                     fat := (jLookup nfkv "fat").getD (.num 0) } }
        | _ => none
      else none
    | _, _, _ => none
  | _ => none

/-! ### Tool catalog (`food_tools.py`): schemas and the intent → tools map -/

/-- A function-call schema, identified by its function name (the schema's
parameter descriptions play no role in the verified behavior). -/
structure ToolDef where
  name : String
deriving DecidableEq

def LOG_MEAL_TOOL : ToolDef := ⟨"log_meal"⟩

def GET_MEALS_TOOL : ToolDef := ⟨"get_meals"⟩

def DELETE_MEAL_TOOL : ToolDef := ⟨"delete_meal"⟩

def UPDATE_MEAL_TOOL : ToolDef := ⟨"update_meal"⟩

/-- `get_tools_for_intent` from `food_tools.py`. -/
def get_tools_for_intent (intent : String) : List ToolDef :=
  if intent == "log" then [LOG_MEAL_TOOL]
  else if intent == "query" then [GET_MEALS_TOOL]
  else if intent == "modify" then [DELETE_MEAL_TOOL, UPDATE_MEAL_TOOL, LOG_MEAL_TOOL]
  else []

/-! ### Conversation orchestrator (`chat_service.py`)

Model calls are oracles: `none` models the call raising (the exception
propagates to the API boundary), `some …` a returned message.  `json.loads`
on raw argument strings is an arbitrary `decode : String → Option Json`.
`dispatch_tool` / `run_tool_calls` below coerce off-schema JSON values by
`jStr` / `jNum` where the source would raise; `process_message` is stated
over them.  The exception-aware `dispatch_tool?` / `run_tool_calls?`
further down model those raise sites explicitly (`none` = an uncaught
exception aborting the turn) and carry the duplicate-skipping and
result-alignment results. -/

/-- The string content of a JSON value used as a string (schema-conforming
calls always put a `str` here). -/
def jStr : Json → String
  | .str s => s
  | _ => ""

/-- The numeric content of a JSON value used as a number (Python `bool` is an
`int`; schema-conforming calls always put a number here). -/
def jNum : Json → ℚ
  | .num q => q
  | .bool true => 1
  | .bool false => 0
  | _ => 0

/-- A parsed `log_meal` food dict as consumed by `log_meal_directly`. -/
def foodArgsToInput (f : FoodArgs) : FoodInput :=
  { name := jStr f.name
    quantity := some (jNum f.quantity)
    calories := jNum f.calories
    protein := jNum f.protein
    carbs := jNum f.carbs
    fat := jNum f.fat }

/-- A parsed `new_food` dict as consumed by `update_meal_data`. -/
def newFoodToInput (f : NewFoodArgs) : NewFood :=
  { name := jStr f.name
    calories := jNum f.calories
    protein := jNum f.protein
    carbs := jNum f.carbs
    fat := jNum f.fat }

/-- One tool call of the model response (`tool_call.id`,
`tool_call.function.name`, `tool_call.function.arguments`). -/
structure ToolCall where
  id : String
  name : String
  arguments : String
deriving DecidableEq

/-- The duplicate-suppression key `f"{func_name}:{func_args}"`. -/
def callKey (tc : ToolCall) : String := tc.name ++ ":" ++ tc.arguments

/-- The "(중복 호출 - 스킵됨)" placeholder for a duplicate call. -/
def DUP_SKIP_MSG : String := "(중복 호출 - 스킵됨)"

/-- The `if func_name == …` dispatch of one (non-duplicate) tool call inside
`process_message`: parse the raw arguments, run the matching meal-service
operation, keep its message.  An unrecognized name or a parser returning
`None` leaves `result = ""`. -/
def dispatch_tool (decode : String → Option Json) (user_id today : String) (hour : Nat)
    (S : Store) (tc : ToolCall) : Store × String :=
  if tc.name == "log_meal" then
    match parse_log_meal_args (decode tc.arguments) today with
    | some args =>
      let mt := if jTruthy args.meal_type then jStr args.meal_type else infer_meal_type hour
      let d := if jTruthy args.date then jStr args.date else today
      let out := log_meal_directly S user_id mt d (args.foods.map foodArgsToInput)
      (out.1, out.2.message)
    | none => (S, "")
  else if tc.name == "get_meals" then
    let args := parse_get_meals_args (decode tc.arguments) today
    let d := if jTruthy args.date then jStr args.date else today
    let mt := if jTruthy args.meal_type then jStr args.meal_type else "all"
    (S, (get_meals_data S user_id d mt).message)
  else if tc.name == "delete_meal" then
    match parse_delete_meal_args (decode tc.arguments) today with
    | some args =>
      let fn : Option String := args.food_name.bind (fun j =>
        match j with
        | .str s => some s
        | _ => none)
      let out := delete_meal_data S user_id (jStr args.date) (jStr args.meal_type) fn
      (out.1, out.2.message)
    | none => (S, "")
  else if tc.name == "update_meal" then
    match parse_update_meal_args (decode tc.arguments) today with
    | some args =>
      let out := update_meal_data S user_id (jStr args.date) (jStr args.meal_type)
        (jStr args.old_food_name) (newFoodToInput args.new_food)
      (out.1, out.2.message)
    | none => (S, "")
  else (S, "")

/-- One entry of `tool_results_with_ids`. -/
structure ToolResultEntry where
  id : String
  result : String
deriving DecidableEq

instance : Inhabited ToolResultEntry := ⟨⟨"", ""⟩⟩

instance : Inhabited ToolCall := ⟨⟨"", "", ""⟩⟩

/-- State of the tool-call loop: the store, the `processed_calls` key set,
the accumulated `tool_results_with_ids`, and the keys actually dispatched
(in dispatch order) — the loop's execution log. -/
structure RunAcc where
  store : Store
  processed : List String
  results : List ToolResultEntry
  executed : List String

/-- The `for tool_call in response_message.tool_calls` loop of
`process_message`: duplicate keys are skipped and reported with
`DUP_SKIP_MSG`; otherwise the call is dispatched and its result (or
`"completed"` when empty) recorded under the call's id. -/
def run_tool_calls_aux (decode : String → Option Json) (user_id today : String) (hour : Nat)
    (acc : RunAcc) : List ToolCall → RunAcc
  | [] => acc
  | tc :: rest =>
    let key := callKey tc
    if acc.processed.contains key then
      run_tool_calls_aux decode user_id today hour
        { acc with results := acc.results ++ [⟨tc.id, DUP_SKIP_MSG⟩] } rest
    else
      let out := dispatch_tool decode user_id today hour acc.store tc
      run_tool_calls_aux decode user_id today hour
        { store := out.1
          processed := key :: acc.processed
          results := acc.results ++ [⟨tc.id, if out.2 == "" then "completed" else out.2⟩]
          executed := acc.executed ++ [key] } rest

def run_tool_calls (decode : String → Option Json) (user_id today : String) (hour : Nat)
    (S : Store) (calls : List ToolCall) : RunAcc :=
  run_tool_calls_aux decode user_id today hour ⟨S, [], [], []⟩ calls

/-- The first model call's message: `content` and `tool_calls`. -/
structure ModelMessage where
  content : Option String
  tool_calls : List ToolCall

/-- Oracles for the three provider calls of one turn.  Outer `none` = the
call raises; for the classifier the inner value is the returned content. -/
structure Oracles where
  classifier_resp : Option (Option String)
  first_call : Option ModelMessage
  follow_up : Option (Option String)

/-- Observable steps of `process_message`, in program order. -/
inductive Event where
  | save_user_message
  | classify
  | fetch_context
  | model_call
  | tool_call_loop
  | follow_up_call
  | save_assistant_message
deriving DecidableEq

/-- The endpoint-visible result dict of `process_message`. -/
structure ChatResult where
  message : String
  intent : String
  action_result : Option (List String)
deriving DecidableEq

/-- Outcome of one `process_message` run: the ordered event trace, the result
(`none` when an exception propagated to the API boundary), and the store. -/
structure ProcessOut where
  trace : List Event
  result : Option ChatResult
  store : Store

/-- `process_message` from `chat_service.py`: save the user message, classify,
fetch context (skipped for `chat`), call the model, run the tool loop, issue
the follow-up call when the first call produced only tool calls, fall back to
the joined tool results, persist the assistant reply. -/
def process_message (O : Oracles) (decode : String → Option Json)
    (user_id content today : String) (hour : Nat) (S : Store) : ProcessOut :=
  let S1 := { S with chat_messages := S.chat_messages ++ [⟨user_id, "user", content, "diet"⟩] }
  let intent := classify_intent O.classifier_resp
  let trace1 := [Event.save_user_message, Event.classify]
  let trace2 := if intent == "chat" then trace1 else trace1 ++ [Event.fetch_context]
  let trace3 := trace2 ++ [Event.model_call]
  match O.first_call with
  | none => { trace := trace3, result := none, store := S1 }
  | some response_message =>
    let assistant_content := response_message.content.getD ""
    if response_message.tool_calls.isEmpty then
      let final := if assistant_content == "" then "응답을 생성할 수 없습니다." else assistant_content
      { trace := trace3 ++ [Event.save_assistant_message]
        result := some { message := final, intent := intent, action_result := none }
        store := { S1 with
          chat_messages := S1.chat_messages ++ [⟨user_id, "assistant", final, "diet"⟩] } }
    else
      let acc := run_tool_calls decode user_id today hour S1 response_message.tool_calls
      let trace4 := trace3 ++ [Event.tool_call_loop]
      let action_result := some (acc.results.map (·.result))
      if !acc.results.isEmpty && assistant_content == "" then
        match O.follow_up with
        | none => { trace := trace4 ++ [Event.follow_up_call], result := none, store := acc.store }
        | some fc =>
          let a1 := fc.getD ""
          let a2 := if a1 == "" then joinSep "\n" (acc.results.map (·.result)) else a1
          let final := if a2 == "" then "응답을 생성할 수 없습니다." else a2
          { trace := trace4 ++ [Event.follow_up_call, Event.save_assistant_message]
            result := some { message := final, intent := intent, action_result := action_result }
            store := { acc.store with
              chat_messages := acc.store.chat_messages ++ [⟨user_id, "assistant", final, "diet"⟩] } }
      else
        let final := if assistant_content == "" then "응답을 생성할 수 없습니다." else assistant_content
        { trace := trace4 ++ [Event.save_assistant_message]
          result := some { message := final, intent := intent, action_result := action_result }
          store := { acc.store with
            chat_messages := acc.store.chat_messages ++ [⟨user_id, "assistant", final, "diet"⟩] } }

/-! ### Exception-aware dispatch (`chat_service.py` × `meal_service.py`)

The tool-loop body of `process_message` has no `try/except`: an exception
in a meal-service call propagates out of `process_message` and surfaces as
an HTTP 500 at the API layer (`api/v1/chat.py`), aborting the turn with the
remaining calls undispatched and no follow-up model call.  The definitions
below model those raise sites with `Option` (`none` = uncaught exception):
the `MEAL_TYPE_LABELS[meal_type]` dict subscript (`KeyError` off the enum
keys, `meal_service.py:203`, `:230`, `:248`), `food_name.lower()` /
`old_food_name.lower()` on a non-string (`meal_service.py:210`, `:253`),
and non-numeric food values in the `processed_foods` comprehension or the
item write / calorie delta (`meal_service.py:58-68`, `:261-270`). -/

/-- The `MEAL_TYPE_LABELS` dict lookup itself: the subscript `d[k]` raises
`KeyError` off the four enum keys (`none`); `MEAL_TYPE_LABELS` above is the
`.get(k, "")` accessor used by `get_meals_data`. -/
def MEAL_TYPE_LABELS_dict (mt : String) : Option String :=
  if mt == "breakfast" then some "아침"
  else if mt == "lunch" then some "점심"
  else if mt == "dinner" then some "저녁"
  else if mt == "snack" then some "간식"
  else none

/-- Python `f"{value}"` rendering of a raw JSON value inside a message
(container rendering abbreviated; only non-emptiness of whole messages is
ever used). -/
def jDisplay : Json → String
  | .null => "None"
  | .bool true => "True"
  | .bool false => "False"
  | .num q => ratStr q
  | .str s => s
  | .arr _ => "[...]"
  | .obj _ => "\x7b...\x7d"

/-- A JSON value in a position where the source calls a `str` method on it
or stores it in a string column: non-strings raise or are rejected
(`none`). -/
def jStr? : Json → Option String
  | .str s => some s
  | _ => none

/-- A JSON value in a position where the source does arithmetic with it
(Python `bool` is an `int`); anything non-numeric makes `round`, `-`, or
the numeric-column write raise (`none`). -/
def jNum? : Json → Option ℚ
  | .num q => some q
  | .bool true => some 1
  | .bool false => some 0
  | _ => none

/-- One parsed food dict converted for `log_meal_directly`, with the raise
sites of the `processed_foods` comprehension modelled
(`meal_service.py:58-68`): a non-numeric quantity or macro value raises
before any database access.  A non-string name also fails: the source
raises on it whenever the meal already exists (`f["name"].lower()`,
`meal_service.py:89`) and otherwise stores the raw value, which the
string-typed store cannot hold. -/
def foodArgsToInput? (f : FoodArgs) : Option FoodInput := do
  let n ← jStr? f.name
  let q ← jNum? f.quantity
  let c ← jNum? f.calories
  let p ← jNum? f.protein
  let cb ← jNum? f.carbs
  let ft ← jNum? f.fat
  pure { name := n, quantity := some q, calories := c, protein := p, carbs := cb, fat := ft }

/-- The `new_food` dict converted for `update_meal_data`, with the raise
sites of the item write and calorie delta modelled
(`meal_service.py:261-270`): a non-numeric value raises in the
numeric-column write or the subtraction; a non-string name cannot be held
by the string-typed store and likewise fails. -/
def newFoodToInput? (f : NewFoodArgs) : Option NewFood := do
  let n ← jStr? f.name
  let c ← jNum? f.calories
  let p ← jNum? f.protein
  let cb ← jNum? f.carbs
  let ft ← jNum? f.fat
  pure { name := n, calories := c, protein := p, carbs := cb, fat := ft }

/-- `log_meal_directly` reached with the raw JSON meal type and date the
orchestrator passes: the foods comprehension raises before any database
access on off-schema values.  A truthy non-string meal type or date never
raises in the source — the raw value keys the row — but cannot be held by
the string-typed store; such calls are modelled as failing and are thereby
excluded from the completing runs that the amended claims quantify over. -/
def log_meal_directly? (S : Store) (user_id : String) (mtJ dJ : Json)
    (foods : List FoodArgs) : Option (Store × ActionRes) := do
  let fs ← foods.mapM foodArgsToInput?
  let mt ← jStr? mtJ
  let d ← jStr? dJ
  pure (log_meal_directly S user_id mt d fs)

/-- `get_meals_data` reached with raw JSON date / meal-type arguments: a
truthy non-string value matches no stored row (the query compares it
against string columns) and never raises (`meal_service.py:154-186`). -/
def get_meals_data_j (S : Store) (user_id : String) (dJ mtJ : Json) : GetMealsRes :=
  match dJ, mtJ with
  | .str d, .str m => get_meals_data S user_id d m
  | _, _ => { success := true, message := jDisplay dJ ++ " 식단 기록이 없습니다.", data := none }

/-- `delete_meal_data` with the raw JSON arguments the orchestrator passes
(`chat_service.py:174-184`) and the source's raise sites modelled: the
no-record branch subscripts the labels dict (`meal_service.py:203`), the
whole-meal branch subscripts it after the row was already deleted
(`meal_service.py:230`), and `food_name.lower()` raises on a truthy
non-string (`meal_service.py:210`).  A truthy non-string date or meal type
matches no stored row.  On an abort after a write the mutated store is
dropped: nothing is proved about a store the turn abandoned. -/
def delete_meal_data? (S : Store) (user_id : String) (dJ mtJ : Json)
    (fnJ : Option Json) : Option (Store × ActionRes) :=
  match dJ, mtJ with
  | .str d, .str m =>
    match findMeal S user_id d m with
    | none =>
      match MEAL_TYPE_LABELS_dict m with
      | some label =>
        some (S, { success := false, message := d ++ " " ++ label ++ " 기록이 없습니다." })
      | none => none
    | some _ =>
      if truthyOpt fnJ then
        match fnJ with
        | some (.str fn) => some (delete_meal_data S user_id d m (some fn))
        | _ => none
      else
        match MEAL_TYPE_LABELS_dict m with
        | some _ => some (delete_meal_data S user_id d m none)
        | none => none
  | _, _ =>
    match mtJ with
    | .str m =>
      match MEAL_TYPE_LABELS_dict m with
      | some label =>
        some (S, { success := false
                   message := jDisplay dJ ++ " " ++ label ++ " 기록이 없습니다." })
      | none => none
    | _ => none

/-- `update_meal_data` with raw JSON arguments and the source's raise sites
modelled: the no-record branch subscripts the labels dict
(`meal_service.py:248`), `old_food_name.lower()` raises on a non-string
(`meal_service.py:253`), and an off-schema `new_food` value raises in the
item write or calorie delta after the target lookup
(`meal_service.py:261-270`), before any successful write. -/
def update_meal_data? (S : Store) (user_id : String) (dJ mtJ ofnJ : Json)
    (nfJ : NewFoodArgs) : Option (Store × ActionRes) :=
  match dJ, mtJ with
  | .str d, .str m =>
    match findMeal S user_id d m with
    | none =>
      match MEAL_TYPE_LABELS_dict m with
      | some label =>
        some (S, { success := false, message := d ++ " " ++ label ++ " 기록이 없습니다." })
      | none => none
    | some meal =>
      match ofnJ with
      | .str ofn =>
        match meal.items.find? (fun it => strSubOf (myToLower ofn) (myToLower it.name)) with
        | none =>
          some (S, { success := false, message := "\"" ++ ofn ++ "\"을(를) 찾을 수 없습니다." })
        | some _ =>
          match newFoodToInput? nfJ with
          | some nf => some (update_meal_data S user_id d m ofn nf)
          | none => none
      | _ => none
  | _, _ =>
    match mtJ with
    | .str m =>
      match MEAL_TYPE_LABELS_dict m with
      | some label =>
        some (S, { success := false
                   message := jDisplay dJ ++ " " ++ label ++ " 기록이 없습니다." })
      | none => none
    | _ => none

/-- The `if func_name == …` dispatch with the raise sites modelled: `none`
is an uncaught exception aborting the whole turn. -/
def dispatch_tool? (decode : String → Option Json) (user_id today : String) (hour : Nat)
    (S : Store) (tc : ToolCall) : Option (Store × String) :=
  if tc.name == "log_meal" then
    match parse_log_meal_args (decode tc.arguments) today with
    | some args =>
      let mtJ := if jTruthy args.meal_type then args.meal_type
                 else .str (infer_meal_type hour)
      let dJ := if jTruthy args.date then args.date else .str today
      (log_meal_directly? S user_id mtJ dJ args.foods).map (fun out => (out.1, out.2.message))
    | none => some (S, "")
  else if tc.name == "get_meals" then
    let args := parse_get_meals_args (decode tc.arguments) today
    let dJ := if jTruthy args.date then args.date else .str today
    let mtJ := if jTruthy args.meal_type then args.meal_type else .str "all"
    some (S, (get_meals_data_j S user_id dJ mtJ).message)
  else if tc.name == "delete_meal" then
    match parse_delete_meal_args (decode tc.arguments) today with
    | some args =>
      (delete_meal_data? S user_id args.date args.meal_type args.food_name).map
        (fun out => (out.1, out.2.message))
    | none => some (S, "")
  else if tc.name == "update_meal" then
    match parse_update_meal_args (decode tc.arguments) today with
    | some args =>
      (update_meal_data? S user_id args.date args.meal_type args.old_food_name
        args.new_food).map (fun out => (out.1, out.2.message))
    | none => some (S, "")
  else some (S, "")

/-- The tool-call loop with exceptions modelled: a raising dispatch aborts
the entire loop (`none`) — no result entry is recorded for the raising call
or any later one, and no follow-up model call happens (the exception
propagates out of `process_message`). -/
def run_tool_calls_aux? (decode : String → Option Json) (user_id today : String)
    (hour : Nat) (acc : RunAcc) : List ToolCall → Option RunAcc
  | [] => some acc
  | tc :: rest =>
    let key := callKey tc
    if acc.processed.contains key then
      run_tool_calls_aux? decode user_id today hour
        { acc with results := acc.results ++ [⟨tc.id, DUP_SKIP_MSG⟩] } rest
    else
      match dispatch_tool? decode user_id today hour acc.store tc with
      | none => none
      | some out =>
        run_tool_calls_aux? decode user_id today hour
          { store := out.1
            processed := key :: acc.processed
            results := acc.results ++ [⟨tc.id, if out.2 == "" then "completed" else out.2⟩]
            executed := acc.executed ++ [key] } rest

/-- `run_tool_calls` with exceptions modelled: `some acc` is a turn whose
dispatched calls all completed, `none` a turn aborted by a raise. -/
def run_tool_calls? (decode : String → Option Json) (user_id today : String)
    (hour : Nat) (S : Store) (calls : List ToolCall) : Option RunAcc :=
  run_tool_calls_aux? decode user_id today hour ⟨S, [], [], []⟩ calls

/-! ### Mutation sequences over the meal store (for the total-calories invariant) -/

/-- One MealStore mutation, as dispatched by the orchestrator. -/
inductive StoreOp where
  | logOp (user_id meal_type meal_date : String) (foods : List FoodInput)
  | deleteOp (user_id meal_date meal_type : String) (food_name : Option String)
  | updateOp (user_id meal_date meal_type old_food_name : String) (new_food : NewFood)
deriving DecidableEq

def applyOp (S : Store) : StoreOp → Store
  | .logOp u mt d foods => (log_meal_directly S u mt d foods).1
  | .deleteOp u d mt fn => (delete_meal_data S u d mt fn).1
  | .updateOp u d mt ofn nf => (update_meal_data S u d mt ofn nf).1

def applyOps (S : Store) (ops : List StoreOp) : Store := ops.foldl applyOp S

/-- Sum of the `calories` column over a list of `meal_items` rows. -/
def itemsCalSum (items : List MealItem) : ℚ := (items.map (·.calories)).sum

/-- Nonnegative calorie inputs: every logged food has nonnegative calories
and quantity, and every update's new food has nonnegative calories. -/
def OpOk : StoreOp → Prop
  | .logOp _ _ _ foods => ∀ f ∈ foods, 0 ≤ f.calories ∧ 0 ≤ f.quantity.getD 1
  | .deleteOp _ _ _ _ => True
  | .updateOp _ _ _ _ nf => 0 ≤ nf.calories

/-- Well-formedness of one stored meal row: distinct item ids below the id
counter, nonnegative item calories, and the total equal to the item sum. -/
def MealInv (next_item_id : Nat) (e : Meal) : Prop :=
  (e.items.map MealItem.id).Nodup ∧
  (∀ it ∈ e.items, it.id < next_item_id) ∧
  (∀ it ∈ e.items, 0 ≤ it.calories) ∧
  e.total_calories = itemsCalSum e.items

def StoreInv (S : Store) : Prop := ∀ e ∈ S.meals, MealInv S.next_item_id e

theorem mealInv_mono {n m : Nat} {e : Meal} (h : MealInv n e) (hnm : n ≤ m) : MealInv m e :=
  ⟨h.1, fun it hit => lt_of_lt_of_le (h.2.1 it hit) hnm, h.2.2.1, h.2.2.2⟩

theorem itemsCalSum_nil : itemsCalSum [] = 0 := rfl

theorem itemsCalSum_cons (x : MealItem) (xs : List MealItem) :
    itemsCalSum (x :: xs) = x.calories + itemsCalSum xs := by
  simp [itemsCalSum]

theorem itemsCalSum_append (l₁ l₂ : List MealItem) :
    itemsCalSum (l₁ ++ l₂) = itemsCalSum l₁ + itemsCalSum l₂ := by
  simp [itemsCalSum]

theorem itemsCalSum_nonneg {l : List MealItem} (h : ∀ it ∈ l, 0 ≤ it.calories) :
    0 ≤ itemsCalSum l := by
  refine List.sum_nonneg ?_
  intro x hx
  rcases List.mem_map.mp hx with ⟨it, hit, rfl⟩
  exact h it hit

/-- Removing the (unique) item with `t`'s id subtracts exactly `t`'s calories. -/
theorem itemsCalSum_filter_ne_id {l : List MealItem} {t : MealItem}
    (hnd : (l.map MealItem.id).Nodup) (ht : t ∈ l) :
    itemsCalSum (l.filter (fun it => !(it.id == t.id))) = itemsCalSum l - t.calories := by
  induction l with
  | nil => cases ht
  | cons x xs ih =>
    rw [List.map_cons, List.nodup_cons] at hnd
    rcases List.mem_cons.mp ht with rfl | htxs
    · have hxs : xs.filter (fun it => !(it.id == t.id)) = xs := by
        refine List.filter_eq_self.mpr ?_
        intro a ha
        have hne : a.id ≠ t.id := fun hEq => hnd.1 (hEq ▸ List.mem_map_of_mem MealItem.id ha)
        simp [hne]
      rw [List.filter_cons_of_neg (by simp), hxs, itemsCalSum_cons]
      ring
    · have hxt : x.id ≠ t.id := fun hEq => hnd.1 (hEq ▸ List.mem_map_of_mem MealItem.id htxs)
      rw [List.filter_cons_of_pos (by simp [hxt]), itemsCalSum_cons, itemsCalSum_cons,
        ih hnd.2 htxs]
      ring

/-- Overwriting the (unique) item with `t`'s id swaps `t`'s calories for the
replacement's. -/
theorem itemsCalSum_map_replace {l : List MealItem} {t upd : MealItem}
    (hnd : (l.map MealItem.id).Nodup) (ht : t ∈ l) :
    itemsCalSum (l.map (fun it => if it.id == t.id then upd else it)) =
      itemsCalSum l - t.calories + upd.calories := by
  induction l with
  | nil => cases ht
  | cons x xs ih =>
    rw [List.map_cons, List.nodup_cons] at hnd
    rcases List.mem_cons.mp ht with rfl | htxs
    · have hxs : xs.map (fun it => if it.id == t.id then upd else it) = xs := by
        have hcg : ∀ a ∈ xs, (fun it => if it.id == t.id then upd else it) a = id a := by
          intro a ha
          have hne : a.id ≠ t.id := fun hEq => hnd.1 (hEq ▸ List.mem_map_of_mem MealItem.id ha)
          simp [hne]
        rw [List.map_congr_left hcg, List.map_id]
      rw [List.map_cons, hxs, if_pos (by simp : (t.id == t.id) = true), itemsCalSum_cons,
        itemsCalSum_cons]
      ring
    · have hxt : x.id ≠ t.id := fun hEq => hnd.1 (hEq ▸ List.mem_map_of_mem MealItem.id htxs)
      rw [List.map_cons, if_neg (by simp [hxt] : ¬ (x.id == t.id) = true), itemsCalSum_cons,
        itemsCalSum_cons, ih hnd.2 htxs]
      ring

/-! ### Concrete sample instances (used by witnesses and counterexamples) -/

def sampleFood : FoodInput := ⟨"rice", none, 0, 0, 0, 0⟩

def sampleNewFood : NewFood := ⟨"soda", -1, 0, 0, 0⟩

def sampleItem : MealItem := ⟨0, "rice", ratStr 1 ++ "인분", 0, 0, 0, 0⟩

def sampleMeal : Meal := ⟨0, "u", "2025-01-01", "breakfast", 0, [sampleItem]⟩

def sampleStore : Store := ⟨[sampleMeal], [], 1, 1⟩

def c1CounterOps : List StoreOp :=
  [.logOp "u" "breakfast" "2025-01-01" [sampleFood],
   .updateOp "u" "2025-01-01" "breakfast" "rice" sampleNewFood]

def c1WitnessOps : List StoreOp :=
  [.logOp "u" "lunch" "2025-01-02" [⟨"rice", none, 2, 0, 0, 0⟩]]

def sampleCall : ToolCall := ⟨"call-1", "mystery_fn", "{}"⟩

def brunchCall : ToolCall := ⟨"call-2", "delete_meal", "\x7b\"meal_type\": \"brunch\"\x7d"⟩

/-- `json.loads` of `brunchCall.arguments`. -/
def brunchDecode : String → Option Json :=
  fun _ => some (Json.obj [("meal_type", Json.str "brunch")])

/-- The completed loop state for `[sampleCall, sampleCall]` on the empty
store. -/
def sampleDupAcc : RunAcc :=
  ⟨emptyStore, ["mystery_fn:{}"],
   [⟨"call-1", "completed"⟩, ⟨"call-1", DUP_SKIP_MSG⟩], ["mystery_fn:{}"]⟩

/-- The completed loop state for `[sampleCall]` on the empty store. -/
def sampleOneAcc : RunAcc :=
  ⟨emptyStore, ["mystery_fn:{}"], [⟨"call-1", "completed"⟩], ["mystery_fn:{}"]⟩

def c1FinalMeal : Meal :=
  ⟨0, "u", "2025-01-01", "breakfast", max 0 (0 + (-1 - 0)),
   [⟨0, "soda", ratStr 1 ++ "인분", -1, 0, 0, 0⟩]⟩

theorem pyRound_nonneg {q : ℚ} (hq : 0 ≤ q) : 0 ≤ pyRound q := by
  have hf : (0 : ℤ) ≤ ratFloor q :=
    Int.fdiv_nonneg (Rat.num_nonneg.mpr hq) (Int.natCast_nonneg _)
  unfold pyRound
  split
  · exact hf
  · split
    · omega
    · split
      · exact hf
      · omega

theorem processFood_calories_nonneg {f : FoodInput} (hc : 0 ≤ f.calories)
    (hq : 0 ≤ f.quantity.getD 1) : 0 ≤ (processFood f).calories := by
  have hprod : 0 ≤ f.calories * f.quantity.getD 1 := mul_nonneg hc hq
  show 0 ≤ ((pyRound (f.calories * f.quantity.getD 1) : ℤ) : ℚ)
  exact_mod_cast pyRound_nonneg hprod

theorem mkItemRows_map_calories (fs : List ProcessedFood) :
    ∀ b, (mkItemRows b fs).map (·.calories) = fs.map (·.calories) := by
  induction fs with
  | nil => intro b; rfl
  | cons f fs ih => intro b; simp [mkItemRows, ih]

theorem mkItemRows_length (fs : List ProcessedFood) :
    ∀ b, (mkItemRows b fs).length = fs.length := by
  induction fs with
  | nil => intro b; rfl
  | cons f fs ih => intro b; simp [mkItemRows, ih]

theorem mkItemRows_id_bounds (fs : List ProcessedFood) :
    ∀ b, ∀ r ∈ mkItemRows b fs, b ≤ r.id ∧ r.id < b + fs.length := by
  induction fs with
  | nil => intro b r hr; cases hr
  | cons f fs ih =>
    intro b r hr
    rcases List.mem_cons.mp hr with rfl | hr'
    · simp
    · have hb := ih (b + 1) r hr'
      have hlen : (f :: fs).length = fs.length + 1 := rfl
      omega

theorem mkItemRows_ids_nodup (fs : List ProcessedFood) :
    ∀ b, ((mkItemRows b fs).map MealItem.id).Nodup := by
  induction fs with
  | nil => intro b; simp [mkItemRows]
  | cons f fs ih =>
    intro b
    rw [mkItemRows, List.map_cons, List.nodup_cons]
    refine ⟨?_, ih (b + 1)⟩
    intro hmem
    rcases List.mem_map.mp hmem with ⟨r, hr, hid⟩
    have := (mkItemRows_id_bounds fs (b + 1) r hr).1
    simp at hid
    omega

theorem mkItemRows_calories_mem {fs : List ProcessedFood} :
    ∀ {b r}, r ∈ mkItemRows b fs → ∃ f ∈ fs, r.calories = f.calories := by
  induction fs with
  | nil => intro b r hr; cases hr
  | cons f fs ih =>
    intro b r hr
    rcases List.mem_cons.mp hr with rfl | hr'
    · exact ⟨f, List.mem_cons_self f fs, rfl⟩
    · rcases ih hr' with ⟨g, hg, hcal⟩
      exact ⟨g, List.mem_cons_of_mem f hg, hcal⟩

/-! Branch-equation lemmas for the meal-service operations. -/

theorem log_meal_directly_none {S : Store} {u mt d : String} {foods : List FoodInput}
    (hfind : findMeal S u d mt = none) :
    (log_meal_directly S u mt d foods).1 =
      { S with
        meals := S.meals ++ [{
          id := S.next_meal_id
          user_id := u
          date := d
          meal_type := mt
          total_calories := ((foods.map processFood).map (·.calories)).sum
          items := mkItemRows S.next_item_id (foods.map processFood) }]
        next_meal_id := S.next_meal_id + 1
        next_item_id := S.next_item_id + (foods.map processFood).length } := by
  unfold log_meal_directly
  rw [hfind]

theorem log_meal_directly_dup {S : Store} {meal : Meal} {u mt d : String}
    {foods : List FoodInput}
    (hfind : findMeal S u d mt = some meal)
    (hdup : ((foods.map processFood).filter
      (fun f => !((meal.items.map (fun it => myToLower it.name)).contains
        (myToLower f.name)))).isEmpty = true) :
    log_meal_directly S u mt d foods =
      (S, { success := true
            message := joinSep ", " ((foods.map processFood).map (·.name)) ++
              "은(는) 이미 기록되어 있어요!" }) := by
  unfold log_meal_directly
  rw [hfind]
  simp only [hdup, if_true]

theorem log_meal_directly_merge {S : Store} {meal : Meal} {u mt d : String}
    {foods : List FoodInput}
    (hfind : findMeal S u d mt = some meal)
    (hdup : ((foods.map processFood).filter
      (fun f => !((meal.items.map (fun it => myToLower it.name)).contains
        (myToLower f.name)))).isEmpty = false) :
    (log_meal_directly S u mt d foods).1 =
      { S with
        meals := replaceMealById S.meals meal.id
          { meal with
            total_calories := meal.total_calories +
              (((foods.map processFood).filter
                (fun f => !((meal.items.map (fun it => myToLower it.name)).contains
                  (myToLower f.name)))).map (·.calories)).sum
            items := meal.items ++ mkItemRows S.next_item_id
              ((foods.map processFood).filter
                (fun f => !((meal.items.map (fun it => myToLower it.name)).contains
                  (myToLower f.name)))) }
        next_item_id := S.next_item_id +
          ((foods.map processFood).filter
            (fun f => !((meal.items.map (fun it => myToLower it.name)).contains
              (myToLower f.name)))).length } := by
  unfold log_meal_directly
  rw [hfind]
  simp only [hdup, if_false, Bool.false_eq_true]

theorem delete_meal_data_notfound {S : Store} {u d mt : String} {fn : Option String}
    (hfind : findMeal S u d mt = none) :
    delete_meal_data S u d mt fn =
      (S, { success := false
            message := d ++ " " ++ MEAL_TYPE_LABELS mt ++ " 기록이 없습니다." }) := by
  unfold delete_meal_data
  rw [hfind]

theorem delete_meal_data_whole {S : Store} {meal : Meal} {u d mt : String} {fn : Option String}
    (hfind : findMeal S u d mt = some meal) (hfn : pyTruthyStrOpt fn = false) :
    delete_meal_data S u d mt fn =
      ({ S with meals := removeMealById S.meals meal.id },
       { success := true, message := MEAL_TYPE_LABELS mt ++ " 전체 삭제 완료" }) := by
  unfold delete_meal_data
  rw [hfind]
  simp only [hfn, if_false, Bool.false_eq_true]

theorem delete_meal_data_item_notfound {S : Store} {meal : Meal} {u d mt : String}
    {fn : Option String}
    (hfind : findMeal S u d mt = some meal) (hfn : pyTruthyStrOpt fn = true)
    (htarget : meal.items.find?
      (fun it => strSubOf (myToLower (fn.getD "")) (myToLower it.name)) = none) :
    delete_meal_data S u d mt fn =
      (S, { success := false
            message := "\"" ++ fn.getD "" ++ "\"을(를) 찾을 수 없습니다." }) := by
  unfold delete_meal_data
  rw [hfind]
  simp only [hfn, if_true, htarget]

theorem delete_meal_data_item_keep {S : Store} {meal : Meal} {target : MealItem}
    {u d mt : String} {fn : Option String}
    (hfind : findMeal S u d mt = some meal) (hfn : pyTruthyStrOpt fn = true)
    (htarget : meal.items.find?
      (fun it => strSubOf (myToLower (fn.getD "")) (myToLower it.name)) = some target)
    (hlen : (meal.items.length == 1) = false) :
    delete_meal_data S u d mt fn =
      ({ S with
          meals := replaceMealById S.meals meal.id
            { meal with
              total_calories := max 0 (meal.total_calories - target.calories)
              items := meal.items.filter (fun it => !(it.id == target.id)) } },
       { success := true, message := "\"" ++ target.name ++ "\" 삭제 완료" }) := by
  unfold delete_meal_data
  rw [hfind]
  simp only [hfn, if_true, htarget, hlen, if_false, Bool.false_eq_true]

theorem delete_meal_data_item_last {S : Store} {meal : Meal} {target : MealItem}
    {u d mt : String} {fn : Option String}
    (hfind : findMeal S u d mt = some meal) (hfn : pyTruthyStrOpt fn = true)
    (htarget : meal.items.find?
      (fun it => strSubOf (myToLower (fn.getD "")) (myToLower it.name)) = some target)
    (hlen : (meal.items.length == 1) = true) :
    delete_meal_data S u d mt fn =
      ({ S with
          meals := removeMealById
            (replaceMealById S.meals meal.id
              { meal with
                total_calories := max 0 (meal.total_calories - target.calories)
                items := meal.items.filter (fun it => !(it.id == target.id)) })
            meal.id },
       { success := true, message := "\"" ++ target.name ++ "\" 삭제 완료" }) := by
  unfold delete_meal_data
  rw [hfind]
  simp only [hfn, if_true, htarget, hlen]

theorem update_meal_data_notfound {S : Store} {u d mt ofn : String} {nf : NewFood}
    (hfind : findMeal S u d mt = none) :
    update_meal_data S u d mt ofn nf =
      (S, { success := false
            message := d ++ " " ++ MEAL_TYPE_LABELS mt ++ " 기록이 없습니다." }) := by
  unfold update_meal_data
  rw [hfind]

theorem update_meal_data_item_notfound {S : Store} {meal : Meal} {u d mt ofn : String}
    {nf : NewFood}
    (hfind : findMeal S u d mt = some meal)
    (htarget : meal.items.find?
      (fun it => strSubOf (myToLower ofn) (myToLower it.name)) = none) :
    update_meal_data S u d mt ofn nf =
      (S, { success := false
            message := "\"" ++ ofn ++ "\"을(를) 찾을 수 없습니다." }) := by
  unfold update_meal_data
  simp only [hfind, htarget]

theorem update_meal_data_item {S : Store} {meal : Meal} {target : MealItem}
    {u d mt ofn : String} {nf : NewFood}
    (hfind : findMeal S u d mt = some meal)
    (htarget : meal.items.find?
      (fun it => strSubOf (myToLower ofn) (myToLower it.name)) = some target) :
    update_meal_data S u d mt ofn nf =
      ({ S with
          meals := replaceMealById S.meals meal.id
            { meal with
              total_calories := max 0 (meal.total_calories + (nf.calories - target.calories))
              items := meal.items.map (fun it =>
                if it.id == target.id then
                  { target with name := nf.name, calories := nf.calories, protein_g := nf.protein, carbs_g := nf.carbs, fat_g := nf.fat }
                else it) } },
       { success := true
         message := "\"" ++ target.name ++ "\" → \"" ++ nf.name ++ "\" 수정 완료" }) := by
  unfold update_meal_data
  simp only [hfind, htarget]

theorem mem_replaceMealById {meals : List Meal} {mid : Nat} {e' x : Meal}
    (hx : x ∈ replaceMealById meals mid e') : x = e' ∨ x ∈ meals := by
  rcases List.mem_map.mp hx with ⟨y, hy, rfl⟩
  by_cases hc : (y.id == mid) = true
  · left
    simp [hc]
  · right
    simp [hc]
    exact hy

theorem mem_removeMealById {meals : List Meal} {mid : Nat} {x : Meal}
    (hx : x ∈ removeMealById meals mid) : x ∈ meals :=
  List.mem_of_mem_filter hx

theorem storeInv_log {S : Store} {u mt d : String} {foods : List FoodInput}
    (hInv : StoreInv S)
    (hok : ∀ f ∈ foods, 0 ≤ f.calories ∧ 0 ≤ f.quantity.getD 1) :
    StoreInv (log_meal_directly S u mt d foods).1 := by
  have hpn : ∀ p ∈ foods.map processFood, 0 ≤ p.calories := by
    intro p hp
    rcases List.mem_map.mp hp with ⟨f, hf, rfl⟩
    exact processFood_calories_nonneg (hok f hf).1 (hok f hf).2
  cases hfind : findMeal S u d mt with
  | none =>
    rw [log_meal_directly_none hfind]
    intro e he
    dsimp only at he ⊢
    rcases List.mem_append.mp he with hold | hnew
    · exact mealInv_mono (hInv e hold) (Nat.le_add_right _ _)
    · rcases List.mem_singleton.mp hnew with rfl
      refine ⟨mkItemRows_ids_nodup _ _, ?_, ?_, ?_⟩
      · intro it hit
        exact (mkItemRows_id_bounds _ _ it hit).2
      · intro it hit
        rcases mkItemRows_calories_mem hit with ⟨p, hp, hcal⟩
        rw [hcal]
        exact hpn p hp
      · show ((foods.map processFood).map (·.calories)).sum =
          itemsCalSum (mkItemRows S.next_item_id (foods.map processFood))
        rw [itemsCalSum, mkItemRows_map_calories]
  | some meal =>
    have hmeal := hInv meal (List.mem_of_find?_eq_some hfind)
    cases hdup : ((foods.map processFood).filter
        (fun f => !((meal.items.map (fun it => myToLower it.name)).contains
          (myToLower f.name)))).isEmpty with
    | true =>
      have heq := log_meal_directly_dup hfind hdup
      have hst : (log_meal_directly S u mt d foods).1 = S := by rw [heq]
      rw [hst]
      exact hInv
    | false =>
      rw [log_meal_directly_merge hfind hdup]
      intro e he
      dsimp only at he ⊢
      rcases mem_replaceMealById he with rfl | hold
      · refine ⟨?_, ?_, ?_, ?_⟩
        · show ((meal.items ++ mkItemRows S.next_item_id _).map MealItem.id).Nodup
          rw [List.map_append, List.nodup_append]
          refine ⟨hmeal.1, mkItemRows_ids_nodup _ _, ?_⟩
          intro a ha hb
          rcases List.mem_map.mp ha with ⟨it, hit, rfl⟩
          rcases List.mem_map.mp hb with ⟨r, hr, hid⟩
          have h1 := hmeal.2.1 it hit
          have h2 := (mkItemRows_id_bounds _ _ r hr).1
          omega
        · intro it hit
          dsimp only at hit
          rcases List.mem_append.mp hit with h1 | h2
          · have hb := hmeal.2.1 it h1
            omega
          · exact (mkItemRows_id_bounds _ _ it h2).2
        · intro it hit
          dsimp only at hit
          rcases List.mem_append.mp hit with h1 | h2
          · exact hmeal.2.2.1 it h1
          · rcases mkItemRows_calories_mem h2 with ⟨p, hp, hcal⟩
            rw [hcal]
            exact hpn p (List.mem_of_mem_filter hp)
        · show meal.total_calories + _ = itemsCalSum (meal.items ++ mkItemRows S.next_item_id _)
          rw [itemsCalSum_append, hmeal.2.2.2]
          congr 1
          rw [itemsCalSum, mkItemRows_map_calories]
      · exact mealInv_mono (hInv e hold) (Nat.le_add_right _ _)

/-- Deleting one item of a well-formed meal row and flooring the decremented
total at 0 yields a well-formed meal row (the floor never bites). -/
theorem mealInv_delete_shape {n : Nat} {meal : Meal} {target : MealItem}
    (hmeal : MealInv n meal) (htmem : target ∈ meal.items) :
    MealInv n
      { meal with
        total_calories := max 0 (meal.total_calories - target.calories)
        items := meal.items.filter (fun it => !(it.id == target.id)) } := by
  refine ⟨?_, ?_, ?_, ?_⟩
  · show ((meal.items.filter (fun it => !(it.id == target.id))).map MealItem.id).Nodup
    exact hmeal.1.sublist (List.Sublist.map MealItem.id (List.filter_sublist meal.items))
  · intro it hit
    exact hmeal.2.1 it (List.mem_of_mem_filter hit)
  · intro it hit
    exact hmeal.2.2.1 it (List.mem_of_mem_filter hit)
  · show max 0 (meal.total_calories - target.calories) =
      itemsCalSum (meal.items.filter (fun it => !(it.id == target.id)))
    have hsum := itemsCalSum_filter_ne_id hmeal.1 htmem
    have hnn : 0 ≤ itemsCalSum meal.items - target.calories := by
      rw [← hsum]
      exact itemsCalSum_nonneg (fun it hit => hmeal.2.2.1 it (List.mem_of_mem_filter hit))
    rw [hsum, hmeal.2.2.2]
    exact max_eq_right hnn

/-- Overwriting one item of a well-formed meal row (same id, nonnegative new
calories) and flooring the adjusted total at 0 yields a well-formed meal row. -/
theorem mealInv_update_shape {n : Nat} {meal : Meal} {target upd : MealItem}
    (hmeal : MealInv n meal) (htmem : target ∈ meal.items)
    (hid : upd.id = target.id) (hcal : 0 ≤ upd.calories) :
    MealInv n
      { meal with
        total_calories := max 0 (meal.total_calories + (upd.calories - target.calories))
        items := meal.items.map (fun it => if it.id == target.id then upd else it) } := by
  have hnn : 0 ≤ itemsCalSum (meal.items.map
      (fun it => if it.id == target.id then upd else it)) := by
    refine itemsCalSum_nonneg ?_
    intro it hit
    rcases List.mem_map.mp hit with ⟨y, hy, rfl⟩
    by_cases hc : (y.id == target.id) = true
    · simpa only [hc, if_true] using hcal
    · simp only [hc, if_false, Bool.false_eq_true]
      exact hmeal.2.2.1 y hy
  have hsum := @itemsCalSum_map_replace meal.items target upd hmeal.1 htmem
  refine ⟨?_, ?_, ?_, ?_⟩
  · show (((meal.items.map (fun it => if it.id == target.id then upd else it))).map
      MealItem.id).Nodup
    rw [List.map_map]
    have hcg : ∀ a ∈ meal.items,
        (MealItem.id ∘ fun it => if it.id == target.id then upd else it) a =
          MealItem.id a := by
      intro a ha
      by_cases hc : (a.id == target.id) = true
      · have haid : a.id = target.id := by simpa using hc
        simp only [Function.comp_apply, hc, if_true]
        rw [hid, haid]
      · simp only [Function.comp_apply, hc, if_false, Bool.false_eq_true]
    rw [List.map_congr_left hcg]
    exact hmeal.1
  · intro it hit
    rcases List.mem_map.mp hit with ⟨y, hy, rfl⟩
    by_cases hc : (y.id == target.id) = true
    · simp only [hc, if_true]
      have := hmeal.2.1 target htmem
      omega
    · simp only [hc, if_false, Bool.false_eq_true]
      exact hmeal.2.1 y hy
  · intro it hit
    rcases List.mem_map.mp hit with ⟨y, hy, rfl⟩
    by_cases hc : (y.id == target.id) = true
    · simpa only [hc, if_true] using hcal
    · simp only [hc, if_false, Bool.false_eq_true]
      exact hmeal.2.2.1 y hy
  · show max 0 (meal.total_calories + (upd.calories - target.calories)) = _
    rw [hsum] at hnn
    have harith : itemsCalSum meal.items - target.calories + upd.calories =
        itemsCalSum meal.items + (upd.calories - target.calories) := by ring
    rw [harith] at hnn
    rw [hsum, harith, hmeal.2.2.2]
    exact max_eq_right hnn

theorem storeInv_delete {S : Store} {u d mt : String} {fn : Option String}
    (hInv : StoreInv S) : StoreInv (delete_meal_data S u d mt fn).1 := by
  cases hfind : findMeal S u d mt with
  | none =>
    have heq := @delete_meal_data_notfound S u d mt fn hfind
    have hst : (delete_meal_data S u d mt fn).1 = S := by rw [heq]
    rw [hst]
    exact hInv
  | some meal =>
    have hmeal := hInv meal (List.mem_of_find?_eq_some hfind)
    cases hfn : pyTruthyStrOpt fn with
    | false =>
      have heq := delete_meal_data_whole hfind hfn
      have hst : (delete_meal_data S u d mt fn).1 =
          { S with meals := removeMealById S.meals meal.id } := by rw [heq]
      rw [hst]
      intro e he
      dsimp only at he ⊢
      exact hInv e (mem_removeMealById he)
    | true =>
      cases htarget : meal.items.find?
          (fun it => strSubOf (myToLower (fn.getD "")) (myToLower it.name)) with
      | none =>
        have heq := delete_meal_data_item_notfound hfind hfn htarget
        have hst : (delete_meal_data S u d mt fn).1 = S := by rw [heq]
        rw [hst]
        exact hInv
      | some target =>
        have htmem : target ∈ meal.items := List.mem_of_find?_eq_some htarget
        have hmeal' := mealInv_delete_shape hmeal htmem
        cases hlen : (meal.items.length == 1) with
        | false =>
          have heq := delete_meal_data_item_keep hfind hfn htarget hlen
          have hst := congrArg Prod.fst heq
          rw [hst]
          intro e he
          dsimp only at he ⊢
          rcases mem_replaceMealById he with rfl | hold
          · exact hmeal'
          · exact hInv e hold
        | true =>
          have heq := delete_meal_data_item_last hfind hfn htarget hlen
          have hst := congrArg Prod.fst heq
          rw [hst]
          intro e he
          dsimp only at he ⊢
          rcases mem_replaceMealById (mem_removeMealById he) with rfl | hold
          · exact hmeal'
          · exact hInv e hold

theorem storeInv_update {S : Store} {u d mt ofn : String} {nf : NewFood}
    (hInv : StoreInv S) (hok : 0 ≤ nf.calories) :
    StoreInv (update_meal_data S u d mt ofn nf).1 := by
  cases hfind : findMeal S u d mt with
  | none =>
    have heq := @update_meal_data_notfound S u d mt ofn nf hfind
    have hst : (update_meal_data S u d mt ofn nf).1 = S := by rw [heq]
    rw [hst]
    exact hInv
  | some meal =>
    have hmeal := hInv meal (List.mem_of_find?_eq_some hfind)
    cases htarget : meal.items.find?
        (fun it => strSubOf (myToLower ofn) (myToLower it.name)) with
    | none =>
      have heq := @update_meal_data_item_notfound S meal u d mt ofn nf hfind htarget
      have hst : (update_meal_data S u d mt ofn nf).1 = S := by rw [heq]
      rw [hst]
      exact hInv
    | some target =>
      have htmem : target ∈ meal.items := List.mem_of_find?_eq_some htarget
      rw [update_meal_data_item hfind htarget]
      intro e he
      dsimp only at he ⊢
      rcases mem_replaceMealById he with rfl | hold
      · exact mealInv_update_shape hmeal htmem rfl hok
      · exact hInv e hold

theorem storeInv_applyOp {S : Store} {op : StoreOp} (hInv : StoreInv S) (hok : OpOk op) :
    StoreInv (applyOp S op) := by
  cases op with
  | logOp u mt d foods => exact storeInv_log hInv hok
  | deleteOp u d mt fn => exact storeInv_delete hInv
  | updateOp u d mt ofn nf => exact storeInv_update hInv hok

theorem storeInv_applyOps {ops : List StoreOp} :
    ∀ {S : Store}, StoreInv S → (∀ op ∈ ops, OpOk op) → StoreInv (applyOps S ops) := by
  induction ops with
  | nil =>
    intro S hInv _
    exact hInv
  | cons op ops ih =>
    intro S hInv hok
    have h1 : StoreInv (applyOp S op) := storeInv_applyOp hInv (hok op (List.mem_cons_self op ops))
    exact ih h1 (fun o ho => hok o (List.mem_cons_of_mem op ho))

theorem storeInv_empty : StoreInv emptyStore := by
  intro e he
  cases he

theorem ratFloor_zero : ratFloor 0 = 0 := by
  unfold ratFloor
  norm_num

theorem pyRound_zero : pyRound 0 = 0 := by
  unfold pyRound
  rw [ratFloor_zero]
  have h : (0 : ℚ) - ((0 : ℤ) : ℚ) < 1 / 2 := by norm_num
  rw [if_pos h]

/-! ### Claim theorems -/

/-- C1 (amended): for every meal, after any sequence of log, delete, and
update operations whose calorie inputs are nonnegative (every logged food has
nonnegative calories and quantity, every update's new food has nonnegative
calories), the Meal's `total_calories` equals the exact sum of the calories
of its current MealItems.  (Without the nonnegativity proviso the
floored-at-0 delta adjustment of delete/update can diverge from the exact
sum — see the counterexample.) -/
theorem C1_total_calories_invariant (ops : List StoreOp)
    (hok : ∀ op ∈ ops, OpOk op) :
    ∀ m ∈ (applyOps emptyStore ops).meals, m.total_calories = itemsCalSum m.items := by
  intro m hm
  exact (storeInv_applyOps storeInv_empty hok m hm).2.2.2

/-- Witness for C1: logging one 2-kcal food satisfies the nonnegativity
proviso, and the resulting store satisfies the invariant. -/
theorem C1_total_calories_invariant_witness :
    (∀ op ∈ c1WitnessOps, OpOk op) ∧
      ∀ m ∈ (applyOps emptyStore c1WitnessOps).meals,
        m.total_calories = itemsCalSum m.items := by
  have hok : ∀ op ∈ c1WitnessOps, OpOk op := by
    intro op hop
    rw [c1WitnessOps, List.mem_singleton] at hop
    subst hop
    intro f hf
    rw [List.mem_singleton] at hf
    subst hf
    exact ⟨zero_le_two, zero_le_one⟩
  exact ⟨hok, C1_total_calories_invariant c1WitnessOps hok⟩

/-- C4: the derived weight-trend label is `"unknown"` for series of fewer
than 2 points, and otherwise `"up"` / `"down"` / `"stable"` according to
whether last-minus-first exceeds +0.3, is below −0.3, or neither. -/
theorem C4_weight_trend_spec :
    (∀ ws : List ℚ, ws.length < 2 → weight_trend ws = "unknown") ∧
    (∀ (w0 w1 : ℚ) (rest : List ℚ),
      weight_trend (w0 :: w1 :: rest) =
        if ((w1 :: rest).getLast (List.cons_ne_nil w1 rest)) - w0 > 3 / 10 then "up"
        else if ((w1 :: rest).getLast (List.cons_ne_nil w1 rest)) - w0 < -(3 / 10) then "down"
        else "stable") := by
  constructor
  · intro ws hlen
    match ws with
    | [] => rfl
    | [_] => rfl
    | w0 :: w1 :: rest => exact absurd hlen (by simp)
  · intro w0 w1 rest
    rfl

/-- Witness for C4: a single data point classifies as `"unknown"`, and a
two-point series classifies by its end-minus-start difference. -/
theorem C4_weight_trend_spec_witness :
    (([(70 : ℚ)] : List ℚ).length < 2 ∧ weight_trend [(70 : ℚ)] = "unknown") ∧
      weight_trend [(70 : ℚ), 704 / 10] =
        (if ([(704 / 10 : ℚ)].getLast (List.cons_ne_nil (704 / 10) [])) - 70 > 3 / 10 then "up"
         else if ([(704 / 10 : ℚ)].getLast (List.cons_ne_nil (704 / 10) [])) - 70 < -(3 / 10)
           then "down"
         else "stable") := by
  refine ⟨⟨?_, C4_weight_trend_spec.1 [(70 : ℚ)] ?_⟩, C4_weight_trend_spec.2 70 (704 / 10) []⟩
  · decide
  · decide

/-- C5: the intent classifier always returns one of the six labels; a thrown
provider call yields `"chat"`, and any content whose trimmed lower-casing is
not a valid label yields `"chat"`. -/
theorem C5_classifier_spec :
    (∀ resp, classify_intent resp ∈ VALID_INTENTS) ∧
    classify_intent none = "chat" ∧
    classify_intent (some none) = "chat" ∧
    (∀ content : String, myToLower (myTrim content) ∉ VALID_INTENTS →
      classify_intent (some (some content)) = "chat") := by
  have hchat : "chat" ∈ VALID_INTENTS := by decide
  refine ⟨?_, rfl, rfl, ?_⟩
  · intro resp
    match resp with
    | none => exact hchat
    | some none => exact hchat
    | some (some content) =>
      simp only [classify_intent]
      by_cases h0 : (content == "") = true
      · rw [if_pos h0]
        exact hchat
      · rw [if_neg h0]
        by_cases hv : (VALID_INTENTS.contains (myToLower (myTrim content))) = true
        · rw [if_pos hv]
          exact List.elem_iff.mp hv
        · rw [if_neg hv]
          exact hchat
  · intro content hnv
    simp only [classify_intent]
    by_cases h0 : (content == "") = true
    · rw [if_pos h0]
    · rw [if_neg h0]
      have hv : (VALID_INTENTS.contains (myToLower (myTrim content))) ≠ true := by
        intro hcon
        exact hnv (List.elem_iff.mp hcon)
      rw [if_neg hv]

/-- Witness for C5: "banana" is not a valid label and classifies to `"chat"`. -/
theorem C5_classifier_spec_witness :
    myToLower (myTrim "banana") ∉ VALID_INTENTS ∧
      classify_intent (some (some "banana")) = "chat" := by
  have h : myToLower (myTrim "banana") ∉ VALID_INTENTS := by decide
  exact ⟨h, C5_classifier_spec.2.2.2 "banana" h⟩

/-- C9: the tool schema set is a pure function of the intent alone (it takes
no other input): `query` yields exactly the lookup tool, `log` and `modify`
yield only mutation tools, and every other intent — in particular `stats`,
`analyze`, `chat` — yields the empty set. -/
theorem C9_tools_pure_function_of_intent :
    get_tools_for_intent "query" = [GET_MEALS_TOOL] ∧
    get_tools_for_intent "log" = [LOG_MEAL_TOOL] ∧
    get_tools_for_intent "modify" = [DELETE_MEAL_TOOL, UPDATE_MEAL_TOOL, LOG_MEAL_TOOL] ∧
    get_tools_for_intent "stats" = [] ∧
    get_tools_for_intent "analyze" = [] ∧
    get_tools_for_intent "chat" = [] ∧
    ((get_tools_for_intent "log").all
      (fun t => t ∈ [LOG_MEAL_TOOL, DELETE_MEAL_TOOL, UPDATE_MEAL_TOOL]) = true) ∧
    ((get_tools_for_intent "modify").all
      (fun t => t ∈ [LOG_MEAL_TOOL, DELETE_MEAL_TOOL, UPDATE_MEAL_TOOL]) = true) ∧
    (∀ intent : String, intent ≠ "log" → intent ≠ "query" → intent ≠ "modify" →
      get_tools_for_intent intent = []) := by
  refine ⟨rfl, rfl, rfl, rfl, rfl, rfl, by decide, by decide, ?_⟩
  intro intent h1 h2 h3
  unfold get_tools_for_intent
  rw [if_neg (by simpa using h1), if_neg (by simpa using h2), if_neg (by simpa using h3)]

/-- Witness for C9: the intent `"stats"` is none of log/query/modify and gets
no tools. -/
theorem C9_tools_pure_function_of_intent_witness :
    ("stats" : String) ≠ "log" ∧ ("stats" : String) ≠ "query" ∧
      ("stats" : String) ≠ "modify" ∧ get_tools_for_intent "stats" = [] := by
  refine ⟨by decide, by decide, by decide, ?_⟩
  exact C9_tools_pure_function_of_intent.2.2.2.2.2.2.2.2 "stats" (by decide) (by decide)
    (by decide)

/-- Counterexample to C1 as stated: logging a 0-kcal item and then updating
it to a food with −1 kcal leaves `total_calories = 0` (the delta adjustment
is floored at 0) while the exact item sum is −1. -/
theorem C1_counterexample :
    ∃ m ∈ (applyOps emptyStore c1CounterOps).meals,
      m.total_calories ≠ itemsCalSum m.items := by
  have hPF : processFood sampleFood = ⟨"rice", 1, 0, 0, 0, 0⟩ := by
    unfold processFood sampleFood
    simp [pyRound_zero]
  have hS1 : applyOp emptyStore (.logOp "u" "breakfast" "2025-01-01" [sampleFood]) =
      sampleStore := by
    show (log_meal_directly emptyStore "u" "breakfast" "2025-01-01" [sampleFood]).1 =
      sampleStore
    rw [log_meal_directly_none
      (show findMeal emptyStore "u" "2025-01-01" "breakfast" = none from rfl)]
    simp [hPF, mkItemRows, sampleStore, sampleMeal, sampleItem, emptyStore]
  have hFind : findMeal sampleStore "u" "2025-01-01" "breakfast" = some sampleMeal := rfl
  have hTarget : sampleMeal.items.find?
      (fun it => strSubOf (myToLower "rice") (myToLower it.name)) = some sampleItem := rfl
  have hS2eq := @update_meal_data_item sampleStore sampleMeal sampleItem
    "u" "2025-01-01" "breakfast" "rice" sampleNewFood hFind hTarget
  have hstore := congrArg Prod.fst hS2eq
  have hfinal : applyOps emptyStore c1CounterOps =
      (update_meal_data sampleStore "u" "2025-01-01" "breakfast" "rice" sampleNewFood).1 := by
    show applyOp (applyOp emptyStore (.logOp "u" "breakfast" "2025-01-01" [sampleFood]))
      (.updateOp "u" "2025-01-01" "breakfast" "rice" sampleNewFood) = _
    rw [hS1]
    rfl
  have hmeals : (applyOps emptyStore c1CounterOps).meals = [c1FinalMeal] := by
    rw [hfinal, hstore]
    simp [replaceMealById, sampleStore, sampleMeal, sampleItem, sampleNewFood, c1FinalMeal]
  rw [hmeals]
  refine ⟨c1FinalMeal, List.mem_singleton_self _, ?_⟩
  have h1 : c1FinalMeal.total_calories = 0 := by
    show max (0 : ℚ) (0 + (-1 - 0)) = 0
    rw [show (0 : ℚ) + (-1 - 0) = -1 by norm_num]
    exact max_eq_left (by norm_num)
  have h2 : itemsCalSum c1FinalMeal.items = -1 := by
    show itemsCalSum [⟨0, "soda", ratStr 1 ++ "인분", -1, 0, 0, 0⟩] = -1
    rw [itemsCalSum_cons, itemsCalSum_nil, add_zero]
  rw [h1, h2]
  norm_num

theorem getD_append_length (l : List ToolResultEntry) (e d : ToolResultEntry) :
    (l ++ [e]).getD l.length d = e := by
  induction l with
  | nil => rfl
  | cons x xs ih =>
    rw [List.cons_append, List.length_cons, List.getD_cons_succ]
    exact ih

theorem run_auxE_results_length (decode : String → Option Json) (u t : String) (hour : Nat) :
    ∀ (calls : List ToolCall) (acc acc' : RunAcc),
      run_tool_calls_aux? decode u t hour acc calls = some acc' →
      acc'.results.length = acc.results.length + calls.length := by
  intro calls
  induction calls with
  | nil =>
    intro acc acc' h
    simp only [run_tool_calls_aux?, Option.some.injEq] at h
    subst h
    simp
  | cons tc rest ih =>
    intro acc acc' h
    simp only [run_tool_calls_aux?] at h
    by_cases hc : (acc.processed.contains (callKey tc)) = true
    · rw [if_pos hc] at h
      rw [ih _ _ h]
      simp
      omega
    · rw [if_neg hc] at h
      cases hd : dispatch_tool? decode u t hour acc.store tc with
      | none =>
        rw [hd] at h
        exact absurd h (by simp)
      | some out =>
        rw [hd] at h
        rw [ih _ _ h]
        simp
        omega

theorem run_auxE_results_ids (decode : String → Option Json) (u t : String) (hour : Nat) :
    ∀ (calls : List ToolCall) (acc acc' : RunAcc),
      run_tool_calls_aux? decode u t hour acc calls = some acc' →
      acc'.results.map (·.id) = acc.results.map (·.id) ++ calls.map (·.id) := by
  intro calls
  induction calls with
  | nil =>
    intro acc acc' h
    simp only [run_tool_calls_aux?, Option.some.injEq] at h
    subst h
    simp
  | cons tc rest ih =>
    intro acc acc' h
    simp only [run_tool_calls_aux?] at h
    by_cases hc : (acc.processed.contains (callKey tc)) = true
    · rw [if_pos hc] at h
      rw [ih _ _ h]
      simp
    · rw [if_neg hc] at h
      cases hd : dispatch_tool? decode u t hour acc.store tc with
      | none =>
        rw [hd] at h
        exact absurd h (by simp)
      | some out =>
        rw [hd] at h
        rw [ih _ _ h]
        simp

theorem run_auxE_results_nonempty (decode : String → Option Json) (u t : String)
    (hour : Nat) :
    ∀ (calls : List ToolCall) (acc acc' : RunAcc),
      (∀ r ∈ acc.results, r.result ≠ "") →
      run_tool_calls_aux? decode u t hour acc calls = some acc' →
      ∀ r ∈ acc'.results, r.result ≠ "" := by
  intro calls
  induction calls with
  | nil =>
    intro acc acc' hacc h
    simp only [run_tool_calls_aux?, Option.some.injEq] at h
    subst h
    exact hacc
  | cons tc rest ih =>
    intro acc acc' hacc h
    simp only [run_tool_calls_aux?] at h
    by_cases hc : (acc.processed.contains (callKey tc)) = true
    · rw [if_pos hc] at h
      refine ih _ _ ?_ h
      intro r hr
      rcases List.mem_append.mp hr with h1 | h2
      · exact hacc r h1
      · rcases List.mem_singleton.mp h2 with rfl
        show DUP_SKIP_MSG ≠ ""
        decide
    · rw [if_neg hc] at h
      cases hd : dispatch_tool? decode u t hour acc.store tc with
      | none =>
        rw [hd] at h
        exact absurd h (by simp)
      | some out =>
        rw [hd] at h
        refine ih _ _ ?_ h
        intro r hr
        rcases List.mem_append.mp hr with h1 | h2
        · exact hacc r h1
        · rcases List.mem_singleton.mp h2 with rfl
          show (if out.2 == "" then "completed" else out.2) ≠ ""
          by_cases hres : (out.2 == "") = true
          · rw [if_pos hres]
            decide
          · rw [if_neg hres]
            exact fun hEq => hres (by rw [hEq]; rfl)

theorem run_auxE_exec_count (decode : String → Option Json) (u t : String) (hour : Nat) :
    ∀ (calls : List ToolCall) (acc acc' : RunAcc) (k : String),
      run_tool_calls_aux? decode u t hour acc calls = some acc' →
      acc'.executed.count k =
        acc.executed.count k +
          (if acc.processed.contains k = true then 0
           else if k ∈ calls.map callKey then 1 else 0) := by
  intro calls
  induction calls with
  | nil =>
    intro acc acc' k h
    simp only [run_tool_calls_aux?, Option.some.injEq] at h
    subst h
    by_cases hc : (acc.processed.contains k) = true <;> simp [hc]
  | cons tc rest ih =>
    intro acc acc' k h
    simp only [run_tool_calls_aux?] at h
    by_cases hc : (acc.processed.contains (callKey tc)) = true
    · rw [if_pos hc] at h
      rw [ih _ _ k h]
      by_cases hk : k = callKey tc
      · subst hk
        rw [if_pos hc, if_pos hc]
      · by_cases hkp : (acc.processed.contains k) = true
        · rw [if_pos hkp, if_pos hkp]
        · rw [if_neg hkp, if_neg hkp]
          have hmem : (k ∈ (tc :: rest).map callKey) ↔ (k ∈ rest.map callKey) := by
            rw [List.map_cons, List.mem_cons]
            exact ⟨fun hor => hor.resolve_left hk, Or.inr⟩
          by_cases hr : k ∈ rest.map callKey
          · rw [if_pos hr, if_pos (hmem.mpr hr)]
          · rw [if_neg hr, if_neg (fun hmem2 => hr (hmem.mp hmem2))]
    · rw [if_neg hc] at h
      cases hd : dispatch_tool? decode u t hour acc.store tc with
      | none =>
        rw [hd] at h
        exact absurd h (by simp)
      | some out =>
        rw [hd] at h
        rw [ih _ _ k h]
        have hcount : ((acc.executed ++ [callKey tc]).count k) =
            acc.executed.count k + (if k = callKey tc then 1 else 0) := by
          rw [List.count_append]
          by_cases hk : k = callKey tc
          · subst hk
            simp
          · rw [if_neg hk]
            simp [List.count_singleton']
            intro hEq
            exact absurd hEq.symm hk
        rw [hcount]
        by_cases hk : k = callKey tc
        · subst hk
          have hcons : (((callKey tc :: acc.processed).contains (callKey tc)) = true) := by
            rw [List.contains_cons]
            simp
          rw [if_pos hcons, if_pos rfl, if_neg hc, if_pos
            (by rw [List.map_cons]; exact List.mem_cons_self _ _)]
        · have hcons : ((callKey tc :: acc.processed).contains k) = acc.processed.contains k := by
            rw [List.contains_cons]
            have hkf : (k == callKey tc) = false := by
              rw [beq_eq_false_iff_ne]
              exact hk
            rw [hkf, Bool.false_or]
          rw [if_neg hk, hcons]
          by_cases hkp : (acc.processed.contains k) = true
          · rw [if_pos hkp, if_pos hkp]
          · rw [if_neg hkp, if_neg hkp]
            have hmem : (k ∈ (tc :: rest).map callKey) ↔ (k ∈ rest.map callKey) := by
              rw [List.map_cons, List.mem_cons]
              exact ⟨fun hor => hor.resolve_left hk, Or.inr⟩
            by_cases hr : k ∈ rest.map callKey
            · rw [if_pos hr, if_pos (hmem.mpr hr)]
            · rw [if_neg hr, if_neg (fun hmem2 => hr (hmem.mp hmem2))]

theorem run_auxE_getD_stable (decode : String → Option Json) (u t : String) (hour : Nat) :
    ∀ (calls : List ToolCall) (acc acc' : RunAcc) (j : Nat), j < acc.results.length →
      run_tool_calls_aux? decode u t hour acc calls = some acc' →
      acc'.results.getD j default = acc.results.getD j default := by
  intro calls
  induction calls with
  | nil =>
    intro acc acc' j _ h
    simp only [run_tool_calls_aux?, Option.some.injEq] at h
    subst h
    rfl
  | cons tc rest ih =>
    intro acc acc' j hj h
    simp only [run_tool_calls_aux?] at h
    by_cases hc : (acc.processed.contains (callKey tc)) = true
    · rw [if_pos hc] at h
      rw [ih _ _ j (by simp; omega) h]
      exact List.getD_append _ _ _ _ hj
    · rw [if_neg hc] at h
      cases hd : dispatch_tool? decode u t hour acc.store tc with
      | none =>
        rw [hd] at h
        exact absurd h (by simp)
      | some out =>
        rw [hd] at h
        rw [ih _ _ j (by simp; omega) h]
        exact List.getD_append _ _ _ _ hj

theorem run_auxE_skip_at (decode : String → Option Json) (u t : String) (hour : Nat) :
    ∀ (calls : List ToolCall) (acc acc' : RunAcc) (j : Nat), j < calls.length →
      (acc.processed.contains (callKey (calls.getD j default)) = true ∨
        ∃ i, i < j ∧ callKey (calls.getD i default) = callKey (calls.getD j default)) →
      run_tool_calls_aux? decode u t hour acc calls = some acc' →
      (acc'.results.getD (acc.results.length + j) default).result = DUP_SKIP_MSG := by
  intro calls
  induction calls with
  | nil =>
    intro acc acc' j hj _ _
    exact absurd hj (by simp)
  | cons tc rest ih =>
    intro acc acc' j hj hcond h
    match j with
    | 0 =>
      have hcont : acc.processed.contains (callKey tc) = true := by
        rcases hcond with hcd | ⟨i, hi, _⟩
        · rw [List.getD_cons_zero] at hcd
          exact hcd
        · exact absurd hi (Nat.not_lt_zero i)
      simp only [run_tool_calls_aux?, if_pos hcont] at h
      rw [Nat.add_zero]
      rw [run_auxE_getD_stable decode u t hour rest _ _ acc.results.length (by simp) h]
      show ((acc.results ++ [(⟨tc.id, DUP_SKIP_MSG⟩ : ToolResultEntry)]).getD
        acc.results.length default).result = DUP_SKIP_MSG
      rw [getD_append_length]
    | j' + 1 =>
      have hj' : j' < rest.length := by
        simp at hj
        omega
      by_cases hc : (acc.processed.contains (callKey tc)) = true
      · simp only [run_tool_calls_aux?, if_pos hc] at h
        have hidx : acc.results.length + (j' + 1) =
            (acc.results ++ [(⟨tc.id, DUP_SKIP_MSG⟩ : ToolResultEntry)]).length + j' := by
          simp
          omega
        rw [hidx]
        refine ih _ _ j' hj' ?_ h
        rcases hcond with hcd | ⟨i, hi, hkeq⟩
        · left
          simpa [List.getD_cons_succ] using hcd
        · match i, hi with
          | 0, _ =>
            left
            rw [List.getD_cons_zero] at hkeq
            rw [List.getD_cons_succ] at hkeq
            show acc.processed.contains (callKey (rest.getD j' default)) = true
            rw [← hkeq]
            exact hc
          | i' + 1, hi =>
            right
            refine ⟨i', by omega, ?_⟩
            rw [List.getD_cons_succ, List.getD_cons_succ] at hkeq
            exact hkeq
      · simp only [run_tool_calls_aux?, if_neg hc] at h
        cases hd : dispatch_tool? decode u t hour acc.store tc with
        | none =>
          rw [hd] at h
          exact absurd h (by simp)
        | some out =>
          rw [hd] at h
          have hidx : acc.results.length + (j' + 1) =
              (acc.results ++ [(⟨tc.id, if out.2 == "" then "completed" else out.2⟩ :
                ToolResultEntry)]).length + j' := by
            simp
            omega
          rw [hidx]
          refine ih _ _ j' hj' ?_ h
          rcases hcond with hcd | ⟨i, hi, hkeq⟩
          · left
            rw [List.getD_cons_succ] at hcd
            show ((callKey tc :: acc.processed).contains
              (callKey (rest.getD j' default))) = true
            rw [List.contains_cons, hcd, Bool.or_true]
          · match i, hi with
            | 0, _ =>
              left
              rw [List.getD_cons_zero] at hkeq
              rw [List.getD_cons_succ] at hkeq
              show ((callKey tc :: acc.processed).contains
                (callKey (rest.getD j' default))) = true
              rw [← hkeq, List.contains_cons]
              simp
            | i' + 1, hi =>
              right
              refine ⟨i', by omega, ?_⟩
              rw [List.getD_cons_succ, List.getD_cons_succ] at hkeq
              exact hkeq

/-- Counterexample for C2 as stated: the same `delete_meal` call with
arguments `{"meal_type": "brunch"}` issued twice is a duplicate pair, yet
the first dispatch already raises `KeyError` at the
`MEAL_TYPE_LABELS[meal_type]` subscript (`meal_service.py:203`) and aborts
the turn — the loop produces no result entries at all, so the repeat is
never skipped and reported, and the mutation-once guarantee is vacuous
rather than established. -/
theorem C2_counterexample :
    callKey ([brunchCall, brunchCall].getD 0 default) =
      callKey ([brunchCall, brunchCall].getD 1 default) ∧
    run_tool_calls? brunchDecode "u" "2025-06-01" 12 emptyStore
      [brunchCall, brunchCall] = none :=
  ⟨rfl, rfl⟩

/-- C2 (corrected): within one model turn, provided every dispatched tool
call completes without raising (the exception-aware loop returns a result
set), tool calls are deduplicated by their exact (function name, raw
argument string) key: every key occurring in the call list is dispatched
exactly once, and each later occurrence of an already-seen key is reported
with the "duplicate call skipped" placeholder instead of being executed.
Without the proviso the guarantee fails: a raising dispatch aborts the
loop before the repeat is reached. -/
theorem C2_duplicate_calls_executed_once (decode : String → Option Json)
    (u t : String) (hour : Nat) (S : Store) (calls : List ToolCall) (acc : RunAcc)
    (hrun : run_tool_calls? decode u t hour S calls = some acc) :
    (∀ k ∈ calls.map callKey, acc.executed.count k = 1) ∧
    (∀ i j : Nat, i < j → j < calls.length →
      callKey (calls.getD i default) = callKey (calls.getD j default) →
      (acc.results.getD j default).result = DUP_SKIP_MSG) := by
  constructor
  · intro k hk
    have hcount := run_auxE_exec_count decode u t hour calls ⟨S, [], [], []⟩ acc k hrun
    rw [hcount]
    rw [if_neg (by simp), if_pos hk]
    simp
  · intro i j hij hj hkey
    have hskip := run_auxE_skip_at decode u t hour calls ⟨S, [], [], []⟩ acc j hj
      (Or.inr ⟨i, hij, hkey⟩) hrun
    simpa using hskip

/-- Witness for C2: the same call issued twice completes; the key is
dispatched once and the second occurrence's result entry is the skip
placeholder. -/
theorem C2_duplicate_calls_executed_once_witness :
    run_tool_calls? (fun _ => none) "u" "2025-01-01" 12 emptyStore
      [sampleCall, sampleCall] = some sampleDupAcc ∧
    ("mystery_fn:{}" ∈ ([sampleCall, sampleCall].map callKey)) ∧
    sampleDupAcc.executed.count "mystery_fn:{}" = 1 ∧
    (0 < 1 ∧ 1 < 2 ∧
      callKey ([sampleCall, sampleCall].getD 0 default) =
        callKey ([sampleCall, sampleCall].getD 1 default)) ∧
    (sampleDupAcc.results.getD 1 default).result = DUP_SKIP_MSG := by
  refine ⟨rfl, by decide, ?_, ⟨by decide, by decide, rfl⟩, ?_⟩
  · exact (C2_duplicate_calls_executed_once (fun _ => none) "u" "2025-01-01" 12 emptyStore
      [sampleCall, sampleCall] sampleDupAcc rfl).1 "mystery_fn:{}" (by decide)
  · exact (C2_duplicate_calls_executed_once (fun _ => none) "u" "2025-01-01" 12 emptyStore
      [sampleCall, sampleCall] sampleDupAcc rfl).2 0 1 (by decide) (by decide) rfl

/-- Counterexample for C10 as stated: a non-empty tool-call list whose
single `delete_meal` call carries meal type "brunch" — `KeyError` at the
`MEAL_TYPE_LABELS[meal_type]` subscript (`meal_service.py:203`) aborts the
turn, so the orchestrator produces no result entries and no follow-up
model call, not one entry per call. -/
theorem C10_counterexample :
    ([brunchCall] : List ToolCall) ≠ [] ∧
    run_tool_calls? brunchDecode "u" "2025-06-01" 12 emptyStore [brunchCall] = none :=
  ⟨by decide, rfl⟩

/-- C10 (corrected): provided every dispatched tool call completes without
raising (the exception-aware loop returns a result set), the loop produces
exactly one result entry per tool call, in order, each carrying that
call's id and a non-empty result string (duplicates get the skip
placeholder, unrecognized or inert calls get "completed"), so the
follow-up model call has one non-empty tool message per tool-call id; an
unrecognized function name always completes, leaving the store untouched
and an empty raw result.  Without the proviso the alignment fails: a
raising dispatch aborts the turn with no result entries and no follow-up
call. -/
theorem C10_tool_results_align (decode : String → Option Json)
    (u t : String) (hour : Nat) (S : Store) (calls : List ToolCall) (acc : RunAcc)
    (hrun : run_tool_calls? decode u t hour S calls = some acc) :
    acc.results.length = calls.length ∧
    acc.results.map (·.id) = calls.map (·.id) ∧
    (∀ r ∈ acc.results, r.result ≠ "") ∧
    (∀ (S' : Store) (tc : ToolCall),
      tc.name ∉ (["log_meal", "get_meals", "delete_meal", "update_meal"] : List String) →
      dispatch_tool? decode u t hour S' tc = some (S', "")) := by
  refine ⟨?_, ?_, ?_, ?_⟩
  · rw [run_auxE_results_length decode u t hour calls ⟨S, [], [], []⟩ acc hrun]
    simp
  · rw [run_auxE_results_ids decode u t hour calls ⟨S, [], [], []⟩ acc hrun]
    simp
  · exact run_auxE_results_nonempty decode u t hour calls ⟨S, [], [], []⟩ acc
      (by intro r hr; cases hr) hrun
  · intro S' tc hname
    have h1 : ¬ (tc.name == "log_meal") = true := fun hc2 =>
      hname (by rw [show tc.name = "log_meal" from eq_of_beq hc2]; decide)
    have h2 : ¬ (tc.name == "get_meals") = true := fun hc2 =>
      hname (by rw [show tc.name = "get_meals" from eq_of_beq hc2]; decide)
    have h3 : ¬ (tc.name == "delete_meal") = true := fun hc2 =>
      hname (by rw [show tc.name = "delete_meal" from eq_of_beq hc2]; decide)
    have h4 : ¬ (tc.name == "update_meal") = true := fun hc2 =>
      hname (by rw [show tc.name = "update_meal" from eq_of_beq hc2]; decide)
    unfold dispatch_tool?
    rw [if_neg h1, if_neg h2, if_neg h3, if_neg h4]

/-- Witness for C10: a completing one-call list (unrecognized function
name) yields exactly one aligned, non-empty result and a no-op dispatch. -/
theorem C10_tool_results_align_witness :
    run_tool_calls? (fun _ => none) "u" "2025-01-01" 12 emptyStore [sampleCall] =
      some sampleOneAcc ∧
    sampleOneAcc.results.length = [sampleCall].length ∧
    (sampleCall.name ∉ (["log_meal", "get_meals", "delete_meal", "update_meal"] :
      List String)) ∧
    dispatch_tool? (fun _ => none) "u" "2025-01-01" 12 emptyStore sampleCall =
      some (emptyStore, "") := by
  refine ⟨rfl, ?_, by decide, ?_⟩
  · exact (C10_tool_results_align (fun _ => none) "u" "2025-01-01" 12 emptyStore
      [sampleCall] sampleOneAcc rfl).1
  · exact (C10_tool_results_align (fun _ => none) "u" "2025-01-01" 12 emptyStore
      [sampleCall] sampleOneAcc rfl).2.2.2 emptyStore sampleCall (by decide)

theorem log_meal_directly_chat_messages (S : Store) (u mt d : String)
    (foods : List FoodInput) :
    (log_meal_directly S u mt d foods).1.chat_messages = S.chat_messages := by
  cases hfind : findMeal S u d mt with
  | none =>
    rw [log_meal_directly_none hfind]
  | some meal =>
    cases hdup : ((foods.map processFood).filter
        (fun f => !((meal.items.map (fun it => myToLower it.name)).contains
          (myToLower f.name)))).isEmpty with
    | true =>
      rw [congrArg Prod.fst (log_meal_directly_dup hfind hdup)]
    | false =>
      rw [log_meal_directly_merge hfind hdup]

theorem delete_meal_data_chat_messages (S : Store) (u d mt : String) (fn : Option String) :
    (delete_meal_data S u d mt fn).1.chat_messages = S.chat_messages := by
  cases hfind : findMeal S u d mt with
  | none =>
    rw [congrArg Prod.fst (@delete_meal_data_notfound S u d mt fn hfind)]
  | some meal =>
    cases hfn : pyTruthyStrOpt fn with
    | false =>
      rw [congrArg Prod.fst (delete_meal_data_whole hfind hfn)]
    | true =>
      cases htarget : meal.items.find?
          (fun it => strSubOf (myToLower (fn.getD "")) (myToLower it.name)) with
      | none =>
        rw [congrArg Prod.fst (delete_meal_data_item_notfound hfind hfn htarget)]
      | some target =>
        cases hlen : (meal.items.length == 1) with
        | false =>
          rw [congrArg Prod.fst (delete_meal_data_item_keep hfind hfn htarget hlen)]
        | true =>
          rw [congrArg Prod.fst (delete_meal_data_item_last hfind hfn htarget hlen)]

theorem update_meal_data_chat_messages (S : Store) (u d mt ofn : String) (nf : NewFood) :
    (update_meal_data S u d mt ofn nf).1.chat_messages = S.chat_messages := by
  cases hfind : findMeal S u d mt with
  | none =>
    rw [congrArg Prod.fst (@update_meal_data_notfound S u d mt ofn nf hfind)]
  | some meal =>
    cases htarget : meal.items.find?
        (fun it => strSubOf (myToLower ofn) (myToLower it.name)) with
    | none =>
      rw [congrArg Prod.fst (@update_meal_data_item_notfound S meal u d mt ofn nf
        hfind htarget)]
    | some target =>
      rw [congrArg Prod.fst (update_meal_data_item hfind htarget)]

theorem dispatch_tool_chat_messages (decode : String → Option Json) (u t : String)
    (hour : Nat) (S : Store) (tc : ToolCall) :
    (dispatch_tool decode u t hour S tc).1.chat_messages = S.chat_messages := by
  unfold dispatch_tool
  by_cases h1 : (tc.name == "log_meal") = true
  · rw [if_pos h1]
    cases parse_log_meal_args (decode tc.arguments) t with
    | none => rfl
    | some args => exact log_meal_directly_chat_messages _ _ _ _ _
  · rw [if_neg h1]
    by_cases h2 : (tc.name == "get_meals") = true
    · rw [if_pos h2]
    · rw [if_neg h2]
      by_cases h3 : (tc.name == "delete_meal") = true
      · rw [if_pos h3]
        cases parse_delete_meal_args (decode tc.arguments) t with
        | none => rfl
        | some args => exact delete_meal_data_chat_messages _ _ _ _ _
      · rw [if_neg h3]
        by_cases h4 : (tc.name == "update_meal") = true
        · rw [if_pos h4]
          cases parse_update_meal_args (decode tc.arguments) t with
          | none => rfl
          | some args => exact update_meal_data_chat_messages _ _ _ _ _ _
        · rw [if_neg h4]

theorem run_aux_chat_messages (decode : String → Option Json) (u t : String) (hour : Nat) :
    ∀ (calls : List ToolCall) (acc : RunAcc),
      (run_tool_calls_aux decode u t hour acc calls).store.chat_messages =
        acc.store.chat_messages := by
  intro calls
  induction calls with
  | nil =>
    intro acc
    rfl
  | cons tc rest ih =>
    intro acc
    simp only [run_tool_calls_aux]
    by_cases hc : (acc.processed.contains (callKey tc)) = true
    · rw [if_pos hc, ih]
    · rw [if_neg hc, ih]
      exact dispatch_tool_chat_messages decode u t hour acc.store tc

/-- C8: `process_message` persists the inbound user message as its very first
step, before intent classification, context loading, or any model call; the
message row is in the store on every path, including those where the first or
follow-up model call raises. -/
theorem C8_user_message_saved_first (O : Oracles) (decode : String → Option Json)
    (u content t : String) (hour : Nat) (S : Store) :
    ((process_message O decode u content t hour S).trace).take 2 =
      [Event.save_user_message, Event.classify] ∧
    (⟨u, "user", content, "diet"⟩ : ChatMsg) ∈
      (process_message O decode u content t hour S).store.chat_messages := by
  have htr : ∀ tail : List Event,
      (((if (classify_intent O.classifier_resp == "chat") = true
        then [Event.save_user_message, Event.classify]
        else [Event.save_user_message, Event.classify] ++ [Event.fetch_context]) ++
          tail).take 2 : List Event) =
        [Event.save_user_message, Event.classify] := by
    intro tail
    by_cases hb : (classify_intent O.classifier_resp == "chat") = true
    · rw [if_pos hb]
      rfl
    · rw [if_neg hb]
      rfl
  have hmem1 : (⟨u, "user", content, "diet"⟩ : ChatMsg) ∈ S.chat_messages ++
      [⟨u, "user", content, "diet"⟩] :=
    List.mem_append.mpr (Or.inr (List.mem_singleton_self _))
  have hmemS1 : ∀ more : List ChatMsg, (⟨u, "user", content, "diet"⟩ : ChatMsg) ∈
      (S.chat_messages ++ [⟨u, "user", content, "diet"⟩]) ++ more :=
    fun more => List.mem_append.mpr (Or.inl hmem1)
  unfold process_message
  cases hfc : O.first_call with
  | none =>
    exact ⟨htr [Event.model_call], hmem1⟩
  | some rm =>
    dsimp only
    by_cases htc : (rm.tool_calls.isEmpty) = true
    · rw [if_pos htc]
      exact ⟨by rw [List.append_assoc]; exact htr _, hmemS1 _⟩
    · rw [if_neg htc]
      have hrun := run_aux_chat_messages decode u t hour rm.tool_calls
        ⟨{ S with chat_messages := S.chat_messages ++ [⟨u, "user", content, "diet"⟩] },
          [], [], []⟩
      by_cases hcnd : (!(run_tool_calls decode u t hour
          { S with chat_messages := S.chat_messages ++ [⟨u, "user", content, "diet"⟩] }
          rm.tool_calls).results.isEmpty && (rm.content.getD "" == "")) = true
      · rw [if_pos hcnd]
        cases hfu : O.follow_up with
        | none =>
          dsimp only
          refine ⟨by simp only [List.append_assoc]; exact htr _, ?_⟩
          show (⟨u, "user", content, "diet"⟩ : ChatMsg) ∈
            (run_tool_calls decode u t hour _ rm.tool_calls).store.chat_messages
          rw [run_tool_calls, hrun]
          exact hmem1
        | some fc =>
          dsimp only
          refine ⟨by simp only [List.append_assoc]; exact htr _, ?_⟩
          refine List.mem_append.mpr (Or.inl ?_)
          show (⟨u, "user", content, "diet"⟩ : ChatMsg) ∈
            (run_tool_calls decode u t hour _ rm.tool_calls).store.chat_messages
          rw [run_tool_calls, hrun]
          exact hmem1
      · rw [if_neg hcnd]
        refine ⟨by simp only [List.append_assoc]; exact htr _, ?_⟩
        refine List.mem_append.mpr (Or.inl ?_)
        show (⟨u, "user", content, "diet"⟩ : ChatMsg) ∈
          (run_tool_calls decode u t hour _ rm.tool_calls).store.chat_messages
        rw [run_tool_calls, hrun]
        exact hmem1

theorem find?_id_replaceMealById {meals : List Meal} {meal e' : Meal}
    (hnd : (meals.map Meal.id).Nodup) (hm : meal ∈ meals) (hid : e'.id = meal.id) :
    (replaceMealById meals meal.id e').find? (fun e => e.id == meal.id) = some e' := by
  induction meals with
  | nil => cases hm
  | cons x xs ih =>
    rw [List.map_cons, List.nodup_cons] at hnd
    show (((x :: xs).map (fun e => if e.id == meal.id then e' else e)).find?
      (fun e => e.id == meal.id)) = some e'
    rw [List.map_cons]
    by_cases hx : (x.id == meal.id) = true
    · rw [if_pos hx]
      rw [List.find?_cons_of_pos]
      rw [hid]
      exact beq_self_eq_true _
    · rw [if_neg hx]
      rw [List.find?_cons_of_neg]
      · apply ih hnd.2
        rcases List.mem_cons.mp hm with rfl | hxs
        · exact absurd (beq_self_eq_true meal.id) hx
        · exact hxs
      · exact hx

/-- C3: logging against an existing Meal filters out foods whose case-insensitive name is already among the meal's items; if every proposed
item is such a duplicate the call returns a success message naming the items
("already recorded") and leaves the store unchanged, otherwise exactly the
non-duplicate remainder is appended and its calorie sum added to
`total_calories`. -/
theorem C3_log_duplicate_handling {S : Store} {u mt d : String} {foods : List FoodInput}
    {meal : Meal} (nf : List ProcessedFood)
    (hfind : findMeal S u d mt = some meal)
    (hnd : (S.meals.map Meal.id).Nodup)
    (hnf : nf = (foods.map processFood).filter (fun f =>
      !((meal.items.map (fun it => myToLower it.name)).contains (myToLower f.name)))) :
    (nf = [] →
      log_meal_directly S u mt d foods =
        (S, { success := true
              message := joinSep ", " ((foods.map processFood).map (·.name)) ++
                "은(는) 이미 기록되어 있어요!" })) ∧
    (nf ≠ [] →
      ((log_meal_directly S u mt d foods).1.meals.find? (fun e => e.id == meal.id)) =
        some { meal with
                total_calories := meal.total_calories + (nf.map (·.calories)).sum
                items := meal.items ++ mkItemRows S.next_item_id nf }) := by
  subst hnf
  constructor
  · intro hdup
    exact log_meal_directly_dup hfind (by rw [hdup]; rfl)
  · intro hne
    have hdup : (((foods.map processFood).filter (fun f =>
        !((meal.items.map (fun it => myToLower it.name)).contains
          (myToLower f.name)))).isEmpty) = false := by
      cases hl : ((foods.map processFood).filter (fun f =>
          !((meal.items.map (fun it => myToLower it.name)).contains (myToLower f.name)))) with
      | nil => exact absurd hl hne
      | cons a l => rfl
    rw [log_meal_directly_merge hfind hdup]
    exact find?_id_replaceMealById hnd (List.mem_of_find?_eq_some hfind) rfl

/-- Witness for C3: re-logging "Rice" when "rice" is already recorded is a
no-op that reports "already recorded". -/
theorem C3_log_duplicate_handling_witness :
    findMeal sampleStore "u" "2025-01-01" "breakfast" = some sampleMeal ∧
    (sampleStore.meals.map Meal.id).Nodup ∧
    ((([⟨"Rice", none, 5, 0, 0, 0⟩] : List FoodInput).map processFood).filter (fun f =>
      !((sampleMeal.items.map (fun it => myToLower it.name)).contains
        (myToLower f.name)))) = [] ∧
    log_meal_directly sampleStore "u" "breakfast" "2025-01-01"
        [⟨"Rice", none, 5, 0, 0, 0⟩] =
      (sampleStore,
       { success := true
         message := joinSep ", " ((([⟨"Rice", none, 5, 0, 0, 0⟩] : List FoodInput).map
           processFood).map (·.name)) ++ "은(는) 이미 기록되어 있어요!" }) := by
  refine ⟨rfl, by decide, rfl, ?_⟩
  exact (@C3_log_duplicate_handling sampleStore "u" "breakfast" "2025-01-01"
    [⟨"Rice", none, 5, 0, 0, 0⟩] sampleMeal [] rfl (by decide) rfl).1 rfl

theorem find?_of_filter_eq_singleton {α : Type} {p : α → Bool} {l : List α} {a : α}
    (h : l.filter p = [a]) : l.find? p = some a := by
  induction l with
  | nil => simp at h
  | cons x xs ih =>
    rw [List.filter_cons] at h
    by_cases hx : p x = true
    · rw [if_pos hx] at h
      obtain ⟨h1, _⟩ := List.cons.inj h
      rw [List.find?_cons_of_pos _ hx, h1]
    · rw [if_neg hx] at h
      rw [List.find?_cons_of_neg _ hx]
      exact ih h

theorem meals_filter_all_congr (l : List Meal) (u d mt : String) (hmt : mt ≠ "all") :
    l.filter (fun e => e.user_id == u && e.date == d &&
      ((mt == "all") || e.meal_type == mt)) =
    l.filter (fun e => e.user_id == u && e.date == d && e.meal_type == mt) := by
  apply List.filter_congr
  intro e _
  have hm : (mt == "all") = false := by
    rw [beq_eq_false_iff_ne]
    exact hmt
  rw [hm, Bool.false_or]

/-- C6: deleting the sole remaining item of a Meal (matching its only item by
name) succeeds, removes the Meal record entirely, and a subsequent query for
that (date, meal_type) returns the explicit "no records" result. -/
theorem C6_delete_sole_item {S : Store} {u d mt fname : String} {meal : Meal}
    {item : MealItem}
    (hfilter : S.meals.filter
      (fun e => e.user_id == u && e.date == d && e.meal_type == mt) = [meal])
    (hitems : meal.items = [item])
    (hfn : fname ≠ "")
    (hmatch : strSubOf (myToLower fname) (myToLower item.name) = true)
    (hmt : mt ≠ "all") :
    (delete_meal_data S u d mt (some fname)).2.success = true ∧
    findMeal (delete_meal_data S u d mt (some fname)).1 u d mt = none ∧
    get_meals_data (delete_meal_data S u d mt (some fname)).1 u d mt =
      { success := true, message := d ++ " 식단 기록이 없습니다.", data := none } := by
  have hfind : findMeal S u d mt = some meal := find?_of_filter_eq_singleton hfilter
  have hfnb : pyTruthyStrOpt (some fname) = true := by
    show (!(fname == "")) = true
    rw [beq_eq_false_iff_ne.mpr hfn]
    rfl
  have htarget : meal.items.find?
      (fun it => strSubOf (myToLower ((some fname).getD "")) (myToLower it.name)) =
        some item := by
    rw [hitems]
    exact List.find?_cons_of_pos _ hmatch
  have hlen : (meal.items.length == 1) = true := by
    rw [hitems]
    rfl
  have heq := delete_meal_data_item_last hfind hfnb htarget hlen
  have hst := congrArg Prod.fst heq
  have hnone : ∀ x ∈ (delete_meal_data S u d mt (some fname)).1.meals,
      ¬ ((fun e => e.user_id == u && e.date == d && e.meal_type == mt) x = true) := by
    rw [hst]
    intro x hx hpred
    dsimp only at hx
    have hx' := List.mem_filter.mp hx
    have hid := hx'.2
    rcases mem_replaceMealById hx'.1 with rfl | hold
    · revert hid
      simp
    · have hxf : x ∈ S.meals.filter
          (fun e => e.user_id == u && e.date == d && e.meal_type == mt) :=
        List.mem_filter.mpr ⟨hold, hpred⟩
      rw [hfilter] at hxf
      have hxm := List.mem_singleton.mp hxf
      subst hxm
      revert hid
      simp
  refine ⟨?_, ?_, ?_⟩
  · rw [heq]
  · exact List.find?_eq_none.mpr hnone
  · have hemp : (delete_meal_data S u d mt (some fname)).1.meals.filter
        (fun e => e.user_id == u && e.date == d &&
          ((mt == "all") || e.meal_type == mt)) = [] := by
      rw [meals_filter_all_congr _ u d mt hmt]
      exact List.filter_eq_nil_iff.mpr hnone
    unfold get_meals_data
    rw [hemp]
    rfl

/-- Witness for C6: deleting "rice", the only item of the sample meal,
removes the meal and makes the query report no records. -/
theorem C6_delete_sole_item_witness :
    (sampleStore.meals.filter (fun e => e.user_id == "u" && e.date == "2025-01-01" &&
      e.meal_type == "breakfast") = [sampleMeal]) ∧
    sampleMeal.items = [sampleItem] ∧
    ("rice" : String) ≠ "" ∧
    strSubOf (myToLower "rice") (myToLower sampleItem.name) = true ∧
    ("breakfast" : String) ≠ "all" ∧
    ((delete_meal_data sampleStore "u" "2025-01-01" "breakfast" (some "rice")).2.success =
      true ∧
    findMeal (delete_meal_data sampleStore "u" "2025-01-01" "breakfast"
      (some "rice")).1 "u" "2025-01-01" "breakfast" = none ∧
    get_meals_data (delete_meal_data sampleStore "u" "2025-01-01" "breakfast"
        (some "rice")).1 "u" "2025-01-01" "breakfast" =
      { success := true, message := "2025-01-01" ++ " 식단 기록이 없습니다.", data := none }) := by
  refine ⟨rfl, rfl, by decide, by decide, by decide, ?_⟩
  exact C6_delete_sole_item rfl rfl (by decide) (by decide) (by decide)

theorem parse_log_meal_args_some_inv {kvs : List (String × Json)} {t : String}
    {a : LogMealArgs}
    (hp : parse_log_meal_args (some (.obj kvs)) t = some a) :
    ∃ mtv fs fkvs, jLookup kvs "meal_type" = some mtv ∧
      jLookup kvs "foods" = some (.arr fs) ∧ fs.mapM asObjKvs = some fkvs ∧
      a = { meal_type := mtv, date := dateOrToday kvs t, foods := fkvs.map mkFoodArgs } := by
  cases hmt : jLookup kvs "meal_type" with
  | none =>
    simp [parse_log_meal_args, hmt] at hp
  | some mtv =>
    cases hfv : jLookup kvs "foods" with
    | none =>
      simp [parse_log_meal_args, hmt, hfv] at hp
    | some fv =>
      simp only [parse_log_meal_args, hmt, hfv] at hp
      by_cases hT : (jTruthy mtv && jTruthy fv) = true
      · rw [if_pos hT] at hp
        cases fv with
        | arr fs =>
          dsimp only at hp
          cases hmm : fs.mapM asObjKvs with
          | none =>
            rw [hmm] at hp
            exact Option.noConfusion hp
          | some fkvs =>
            rw [hmm] at hp
            exact ⟨mtv, fs, fkvs, rfl, rfl, hmm, (Option.some.inj hp).symm⟩
        | null => exact Option.noConfusion hp
        | bool b => exact Option.noConfusion hp
        | num q => exact Option.noConfusion hp
        | str s => exact Option.noConfusion hp
        | obj o => exact Option.noConfusion hp
      · rw [if_neg hT] at hp
        exact Option.noConfusion hp

/-- C7 (amended): the argument parsers are total; malformed or incomplete
arguments (unparsable JSON, non-dict arguments, missing required meal type,
food list, old food name or new food) make the `log_meal`, `delete_meal` and
`update_meal` parsers return the "no action" value `None`, while the
`get_meals` parser instead falls back to querying today with meal type
"all"; when parsing succeeds, a food's quantity defaults to 1 when absent,
the calorie and macro fields default to 0 when missing, and the date
defaults to today's local date when omitted. -/
theorem C7_parser_contract (t : String) :
    parse_log_meal_args none t = none ∧
    parse_delete_meal_args none t = none ∧
    parse_update_meal_args none t = none ∧
    parse_get_meals_args none t = { date := .str t, meal_type := .str "all" } ∧
    (∀ kvs, jLookup kvs "meal_type" = none →
      parse_log_meal_args (some (.obj kvs)) t = none) ∧
    (∀ kvs, jLookup kvs "foods" = none →
      parse_log_meal_args (some (.obj kvs)) t = none) ∧
    (∀ kvs, jLookup kvs "meal_type" = none →
      parse_delete_meal_args (some (.obj kvs)) t = none) ∧
    (∀ kvs, jLookup kvs "meal_type" = none →
      parse_update_meal_args (some (.obj kvs)) t = none) ∧
    (∀ kvs, jLookup kvs "old_food_name" = none →
      parse_update_meal_args (some (.obj kvs)) t = none) ∧
    (∀ kvs, jLookup kvs "new_food" = none →
      parse_update_meal_args (some (.obj kvs)) t = none) ∧
    (∀ fkv, jLookup fkv "quantity" = none → (mkFoodArgs fkv).quantity = .num 1) ∧
    (∀ fkv, jLookup fkv "calories" = none → (mkFoodArgs fkv).calories = .num 0) ∧
    (∀ fkv, jLookup fkv "protein" = none → (mkFoodArgs fkv).protein = .num 0) ∧
    (∀ fkv, jLookup fkv "carbs" = none → (mkFoodArgs fkv).carbs = .num 0) ∧
    (∀ fkv, jLookup fkv "fat" = none → (mkFoodArgs fkv).fat = .num 0) ∧
    (∀ kvs a, parse_log_meal_args (some (.obj kvs)) t = some a →
      jLookup kvs "date" = none → a.date = .str t) ∧
    (∀ kvs a, parse_log_meal_args (some (.obj kvs)) t = some a →
      ∃ fs fkvs, jLookup kvs "foods" = some (.arr fs) ∧ fs.mapM asObjKvs = some fkvs ∧
        a.foods = fkvs.map mkFoodArgs) := by
  refine ⟨rfl, rfl, rfl, rfl, ?_, ?_, ?_, ?_, ?_, ?_, ?_, ?_, ?_, ?_, ?_, ?_, ?_⟩
  · intro kvs h
    simp [parse_log_meal_args, h]
  · intro kvs h
    cases hmt : jLookup kvs "meal_type" with
    | none => simp [parse_log_meal_args, hmt]
    | some mtv => simp [parse_log_meal_args, hmt, h]
  · intro kvs h
    simp [parse_delete_meal_args, h]
  · intro kvs h
    simp [parse_update_meal_args, h]
  · intro kvs h
    cases hmt : jLookup kvs "meal_type" with
    | none => simp [parse_update_meal_args, hmt]
    | some mtv =>
      cases hnf : jLookup kvs "new_food" with
      | none => simp [parse_update_meal_args, hmt, h, hnf]
      | some nfv => simp [parse_update_meal_args, hmt, h, hnf]
  · intro kvs h
    cases hmt : jLookup kvs "meal_type" with
    | none => simp [parse_update_meal_args, hmt]
    | some mtv =>
      cases hofn : jLookup kvs "old_food_name" with
      | none => simp [parse_update_meal_args, hmt, hofn, h]
      | some ofnv => simp [parse_update_meal_args, hmt, hofn, h]
  · intro fkv h
    simp [mkFoodArgs, h]
  · intro fkv h
    simp [mkFoodArgs, h]
  · intro fkv h
    simp [mkFoodArgs, h]
  · intro fkv h
    simp [mkFoodArgs, h]
  · intro fkv h
    simp [mkFoodArgs, h]
  · intro kvs a hp hd
    rcases parse_log_meal_args_some_inv hp with ⟨mtv, fs, fkvs, _, _, _, rfl⟩
    show dateOrToday kvs t = .str t
    rw [dateOrToday, hd]
  · intro kvs a hp
    rcases parse_log_meal_args_some_inv hp with ⟨mtv, fs, fkvs, _, hfv, hmm, rfl⟩
    exact ⟨fs, fkvs, hfv, hmm, rfl⟩

/-- Counterexample to C7 as stated: for the `get_meals` parser, malformed
(unparsable) arguments do not yield "no action" — the parser falls back to
the default query and the orchestrator still dispatches it. -/
theorem C7_counterexample :
    parse_get_meals_args none "2025-06-01" =
      { date := .str "2025-06-01", meal_type := .str "all" } ∧
    dispatch_tool (fun _ => none) "u" "2025-06-01" 12 emptyStore
        ⟨"tc1", "get_meals", "not json"⟩ =
      (emptyStore, "2025-06-01 식단 기록이 없습니다.") := by
  exact ⟨rfl, rfl⟩

/-- Witness for C7: missing fields default as stated and a successful parse
with omitted date uses today's date. -/
theorem C7_parser_contract_witness :
    (jLookup [] "meal_type" = none ∧
      parse_log_meal_args (some (.obj [])) "2025-06-01" = none) ∧
    (jLookup [] "quantity" = none ∧ (mkFoodArgs []).quantity = .num 1) ∧
    (jLookup [("meal_type", Json.str "lunch"), ("foods", Json.arr [Json.obj []])]
      "date" = none) ∧
    parse_log_meal_args
        (some (.obj [("meal_type", Json.str "lunch"), ("foods", Json.arr [Json.obj []])]))
        "2025-06-01" =
      some { meal_type := Json.str "lunch", date := Json.str "2025-06-01"
             foods := [mkFoodArgs []] } ∧
    ({ meal_type := Json.str "lunch", date := Json.str "2025-06-01"
       foods := [mkFoodArgs []] } : LogMealArgs).date = Json.str "2025-06-01" := by
  refine ⟨⟨rfl, (C7_parser_contract "2025-06-01").2.2.2.2.1 [] rfl⟩,
    ⟨rfl, (C7_parser_contract "2025-06-01").2.2.2.2.2.2.2.2.2.2.1 [] rfl⟩, rfl, rfl, ?_⟩
  exact (C7_parser_contract "2025-06-01").2.2.2.2.2.2.2.2.2.2.2.2.2.2.2.1
    [("meal_type", Json.str "lunch"), ("foods", Json.arr [Json.obj []])]
    { meal_type := Json.str "lunch", date := Json.str "2025-06-01"
      foods := [mkFoodArgs []] } rfl rfl
